import Mathlib

/-!
Verification of the quickchart-cloudflare worker (src/index.js).

The development shallowly embeds the worker's three layers:
* the `BrowserSession` Durable Object (session actor): `fetch`, `cleanup`,
  `alarm`, modelled as a state machine over `SessionState`;
* the request-normalization helpers `parseChartParameters`,
  `decodeChartConfig`, `applyChartOptions` over a JSON value model;
* the gateway `default.fetch` routing and error handling.

JavaScript strings are modelled as Lean `String`/`List Char`; JSON numbers
are modelled as integers (the spec's ChartSpec invariant only uses integer
dimensions); `NaN` produced by `parseInt` is modelled as `null`, which is
behaviourally equivalent at every use site in the worker (both are falsy
and both serialize away the dimension).
-/

namespace QuickChart

/-- JSON / JavaScript value model.  Objects are association lists whose keys
are produced by `JSON.parse` and hence distinct. -/
inductive Json where
  | jNull : Json
  | jBool : Bool → Json
  | jNum : Int → Json
  | jStr : String → Json
  | jArr : List Json → Json
  | jObj : List (String × Json) → Json
  deriving Repr

open Json

/-- JavaScript truthiness of a value (`undefined` is collapsed into `jNull`:
both are falsy and the worker never distinguishes them). -/
def truthy : Json → Bool
  | jNull => false
  | jBool b => b
  | jNum n => n != 0
  | jStr s => s != ""
  | jArr _ => true
  | jObj _ => true

/-- JavaScript `a || b`: the first operand when truthy, otherwise the second. -/
def jsOr (a b : Json) : Json := if truthy a then a else b

/-- Property read `o.k` on an object’s field list; a missing key reads as
`undefined`, collapsed into `jNull`. -/
def getField (o : List (String × Json)) (k : String) : Json :=
  match o.lookup k with
  | some v => v
  | none => jNull

/-! ## The `BrowserSession` Durable Object (src/index.js lines 74-235) -/

/-- The in-memory state of one `BrowserSession` instance: `browser` and
`page` model whether `this.browser` / `this.page` hold a live handle,
together with `lastUsed`, `requestCount`, and the Durable Object storage
alarm (`none` when no alarm is scheduled). -/
structure SessionState where
  browser : Bool
  page : Bool
  lastUsed : Nat
  requestCount : Nat
  alarmAt : Option Nat
  deriving Repr, DecidableEq

/-- State installed by the constructor: no browser, no page, counter 0, and
no storage alarm scheduled. -/
def SessionState.fresh (now : Nat) : SessionState :=
  { browser := false, page := false, lastUsed := now,
    requestCount := 0, alarmAt := none }

/-- Nondeterministic environment of one `fetch` call: whether each awaited
engine step (browser initialization, chart update, screenshot) succeeds,
and the current time. -/
structure RenderEnv where
  initOk : Bool
  updateOk : Bool
  screenshotOk : Bool
  now : Nat
  deriving Repr, DecidableEq

def RenderEnv.allOk (e : RenderEnv) : Prop :=
  e.initOk = true ∧ e.updateOk = true ∧ e.screenshotOk = true

instance (e : RenderEnv) : Decidable e.allOk := by
  unfold RenderEnv.allOk; infer_instance

/-- Observable outcome of `BrowserSession.fetch`: a success response carrying
the `X-Browser-Reused` and `X-Request-Count` headers, or a re-raised error. -/
inductive FetchResult where
  | ok : Bool → Nat → FetchResult
  | err : FetchResult
  deriving Repr, DecidableEq

/-- `BrowserSession.cleanup` (lines 212-222): close page and browser
(best-effort), null both handles, reset `requestCount` to 0.  `lastUsed`
and the storage alarm are untouched. -/
def SessionState.cleanup (st : SessionState) : SessionState :=
  { st with browser := false, page := false, requestCount := 0 }

/-- Does `fetch` enter the initialization branch (`!this.browser || !this.page`)? -/
def SessionState.needsInit (st : SessionState) : Bool :=
  !st.browser || !st.page

/-- The part of `BrowserSession.fetch` after the browser exists (lines
107-140): bump `requestCount`, stamp `lastUsed`, then chart update and
screenshot; on error, `cleanup` and re-raise. -/
def fetchAfterInit (st : SessionState) (env : RenderEnv) :
    SessionState × FetchResult :=
  let st2 := { st with requestCount := st.requestCount + 1, lastUsed := env.now }
  if env.updateOk then
    if env.screenshotOk then
      (st2, .ok (decide (st2.requestCount > 1)) st2.requestCount)
    else (st2.cleanup, .err)
  else (st2.cleanup, .err)

/-- `BrowserSession.fetch` (lines 84-141).  `initializeBrowser` (143-169)
sets the handles and schedules nothing; any failure runs `cleanup` and
re-raises. -/
def sessionFetch (st : SessionState) (env : RenderEnv) :
    SessionState × FetchResult :=
  if st.needsInit then
    if env.initOk then
      fetchAfterInit { st with browser := true, page := true } env
    else (st.cleanup, .err)
  else
    fetchAfterInit st env

/-- `BrowserSession.alarm` (lines 224-234): if idle for more than 5 minutes,
`cleanup`; otherwise re-schedule the alarm 60 s ahead.  Invoked only when a
previously scheduled alarm fires, consuming it. -/
def sessionAlarm (st : SessionState) (now : Nat) : SessionState :=
  let st0 := { st with alarmAt := none }
  if now - st0.lastUsed > 5 * 60 * 1000 then st0.cleanup
  else { st0 with alarmAt := some (now + 60000) }

/-- Run a sequence of `fetch` calls, collecting the outcomes. -/
def runTrace (st : SessionState) : List RenderEnv → SessionState × List FetchResult
  | [] => (st, [])
  | e :: es =>
    let (st1, r) := sessionFetch st e
    let (st2, rs) := runTrace st1 es
    (st2, r :: rs)

/-- The condition under which some step of `fetch` fails in environment
`env` from state `st`. -/
def renderFails (st : SessionState) (env : RenderEnv) : Prop :=
  (st.needsInit = true ∧ env.initOk = false) ∨
    env.updateOk = false ∨ env.screenshotOk = false

instance (st : SessionState) (env : RenderEnv) : Decidable (renderFails st env) := by
  unfold renderFails; infer_instance

/-- From a state with a live browser and page, a fully successful `fetch`
increments the counter and reports it, flagging reuse iff it exceeds 1. -/
theorem sessionFetch_live_ok (st : SessionState) (env : RenderEnv)
    (hb : st.browser = true) (hp : st.page = true) (h : env.allOk) :
    sessionFetch st env =
      ({ st with requestCount := st.requestCount + 1, lastUsed := env.now },
        .ok (decide (st.requestCount + 1 > 1)) (st.requestCount + 1)) := by
  obtain ⟨h1, h2, h3⟩ := h
  simp [sessionFetch, SessionState.needsInit, fetchAfterInit, hb, hp, h1, h2, h3]

/-- From a cleared state (no browser handle, counter 0), a fully successful
`fetch` initializes and reports `reused = false`, `requestCount = 1`. -/
theorem sessionFetch_cleared_ok (st : SessionState) (env : RenderEnv)
    (hb : st.browser = false) (hc : st.requestCount = 0) (h : env.allOk) :
    (sessionFetch st env).2 = .ok false 1 := by
  obtain ⟨h1, h2, h3⟩ := h
  simp [sessionFetch, SessionState.needsInit, fetchAfterInit, hb, hc, h1, h2, h3]

/-- C1: a `fetch` call re-raises exactly when browser initialization, chart
update, or screenshot fails; in that case the session state is left with
both handles disposed and `requestCount` reset to 0, and any subsequent
all-successful call on the key reports `reused = false`,
`requestCount = 1`, exactly like a fresh session. -/
theorem C1_failure_resets_session (st : SessionState) (env : RenderEnv) :
    ((sessionFetch st env).2 = .err ↔ renderFails st env) ∧
    ((sessionFetch st env).2 = .err →
      (sessionFetch st env).1.browser = false ∧
      (sessionFetch st env).1.page = false ∧
      (sessionFetch st env).1.requestCount = 0 ∧
      ∀ env2 : RenderEnv, env2.allOk →
        (sessionFetch (sessionFetch st env).1 env2).2 = .ok false 1) := by
  have key : (sessionFetch st env).2 = .err ↔ renderFails st env := by
    rcases st with ⟨b, p, lu, rc, al⟩
    rcases env with ⟨i, u, s, n⟩
    cases b <;> cases p <;> cases i <;> cases u <;> cases s <;>
      simp [sessionFetch, SessionState.needsInit, fetchAfterInit,
        SessionState.cleanup, renderFails]
  refine ⟨key, fun herr => ?_⟩
  have hstate : (sessionFetch st env).1.browser = false ∧
      (sessionFetch st env).1.page = false ∧
      (sessionFetch st env).1.requestCount = 0 := by
    rcases st with ⟨b, p, lu, rc, al⟩
    rcases env with ⟨i, u, s, n⟩
    cases b <;> cases p <;> cases i <;> cases u <;> cases s <;>
      simp_all [sessionFetch, SessionState.needsInit, fetchAfterInit,
        SessionState.cleanup]
  exact ⟨hstate.1, hstate.2.1, hstate.2.2, fun env2 h2 =>
    sessionFetch_cleared_ok _ env2 hstate.1 hstate.2.2 h2⟩

/-- Concrete instance of `C1_failure_resets_session`: a live session whose
chart update fails, followed by an all-successful call. -/
theorem C1_failure_resets_session_witness :
    ((sessionFetch ⟨true, true, 5, 7, none⟩ ⟨true, false, true, 9⟩).2 = .err ↔
      renderFails ⟨true, true, 5, 7, none⟩ ⟨true, false, true, 9⟩) ∧
    ((sessionFetch ⟨true, true, 5, 7, none⟩ ⟨true, false, true, 9⟩).2 = .err →
      (sessionFetch ⟨true, true, 5, 7, none⟩ ⟨true, false, true, 9⟩).1.browser = false ∧
      (sessionFetch ⟨true, true, 5, 7, none⟩ ⟨true, false, true, 9⟩).1.page = false ∧
      (sessionFetch ⟨true, true, 5, 7, none⟩ ⟨true, false, true, 9⟩).1.requestCount = 0 ∧
      ∀ env2 : RenderEnv, env2.allOk →
        (sessionFetch (sessionFetch ⟨true, true, 5, 7, none⟩
          ⟨true, false, true, 9⟩).1 env2).2 = .ok false 1) :=
  C1_failure_resets_session ⟨true, true, 5, 7, none⟩ ⟨true, false, true, 9⟩

/-- Outcomes of a run of all-successful calls from a live session: the
`k`-th call reports count `requestCount + k + 1`, reused iff that exceeds 1. -/
theorem runTrace_live_ok (envs : List RenderEnv) :
    ∀ st : SessionState, st.browser = true → st.page = true →
    (∀ e ∈ envs, e.allOk) →
    (runTrace st envs).2 =
      (List.range envs.length).map
        (fun i => .ok (decide (st.requestCount + i + 1 > 1)) (st.requestCount + i + 1)) := by
  induction envs with
  | nil => intro st _ _ _; simp [runTrace]
  | cons e es ih =>
    intro st hb hp h
    have he : e.allOk := h e (List.mem_cons_self e es)
    have hes : ∀ x ∈ es, x.allOk := fun x hx => h x (List.mem_cons_of_mem e hx)
    have hstep := sessionFetch_live_ok st e hb hp he
    have ihres := ih { st with requestCount := st.requestCount + 1, lastUsed := e.now }
      hb hp hes
    simp only [runTrace, hstep, ihres, List.length_cons, List.range_succ_eq_map,
      List.map_cons, List.map_map]
    congr 1
    apply List.map_congr_left
    intro i _
    simp only [Function.comp_apply, FetchResult.ok.injEq, decide_eq_decide]
    omega

/-- C3: starting from a fresh session, a run of all-successful calls yields
`requestCount = 1, 2, 3, …` with `reused` false on the first call and true
afterwards; in general every successful response reports
`reused = (requestCount > 1)`. -/
theorem C3_reuse_flag_and_counter (now : Nat) (envs : List RenderEnv)
    (h : ∀ e ∈ envs, e.allOk) :
    (runTrace (SessionState.fresh now) envs).2 =
      (List.range envs.length).map (fun i => .ok (decide (i + 1 > 1)) (i + 1)) ∧
    ∀ (st : SessionState) (env : RenderEnv) (r : Bool) (c : Nat),
      (sessionFetch st env).2 = .ok r c → r = decide (c > 1) := by
  constructor
  · cases envs with
    | nil => simp [runTrace]
    | cons e es =>
      have he : e.allOk := h e (List.mem_cons_self e es)
      have hes : ∀ x ∈ es, x.allOk := fun x hx => h x (List.mem_cons_of_mem e hx)
      obtain ⟨h1, h2, h3⟩ := he
      have hstep : sessionFetch (SessionState.fresh now) e =
          (⟨true, true, e.now, 1, none⟩, .ok false 1) := by
        simp [sessionFetch, SessionState.fresh, SessionState.needsInit,
          fetchAfterInit, h1, h2, h3]
      have ihres := runTrace_live_ok es ⟨true, true, e.now, 1, none⟩ rfl rfl hes
      simp only [runTrace, hstep, ihres, List.length_cons, List.range_succ_eq_map,
        List.map_cons, List.map_map]
      congr 1
      apply List.map_congr_left
      intro i _
      simp only [Function.comp_apply, FetchResult.ok.injEq, decide_eq_decide]
      omega
  · intro st env r c hok
    have hform : (sessionFetch st env).2 = .err ∨
        ∃ k, (sessionFetch st env).2 = FetchResult.ok (decide (k > 1)) k := by
      rcases st with ⟨b, p, lu, rc, al⟩
      rcases env with ⟨i, u, s, n⟩
      cases b <;> cases p <;> cases i <;> cases u <;> cases s <;>
        first
          | (left; rfl)
          | (right; exact ⟨rc + 1, rfl⟩)
    rcases hform with hf | ⟨k, hf⟩
    · rw [hf] at hok
      exact absurd hok (by simp)
    · rw [hf] at hok
      injection hok with h1 h2
      subst h2
      subst h1
      rfl

/-- Concrete instance of `C3_reuse_flag_and_counter`: three successful calls
from a fresh session report (false,1), (true,2), (true,3). -/
theorem C3_reuse_flag_and_counter_witness :
    (runTrace (SessionState.fresh 0)
        [⟨true, true, true, 1⟩, ⟨true, true, true, 2⟩, ⟨true, true, true, 3⟩]).2 =
      (List.range 3).map (fun i => .ok (decide (i + 1 > 1)) (i + 1)) ∧
    ∀ (st : SessionState) (env : RenderEnv) (r : Bool) (c : Nat),
      (sessionFetch st env).2 = .ok r c → r = decide (c > 1) :=
  C3_reuse_flag_and_counter 0 _ (by decide)

/-- C4 (divergence witness): no call on the session ever schedules the
idle-check alarm — `fetch` (and `initializeBrowser` inside it) leave
`alarmAt` untouched, and the constructor starts with no alarm, so after any
sequence of renders the storage alarm is still unset and the idle check of
`BrowserSession.alarm` never fires. -/
theorem C4_idle_check_never_scheduled (now : Nat) (envs : List RenderEnv) :
    (runTrace (SessionState.fresh now) envs).1.alarmAt = none ∧
    ∀ (st : SessionState) (env : RenderEnv),
      (sessionFetch st env).1.alarmAt = st.alarmAt := by
  have hpres : ∀ (st : SessionState) (env : RenderEnv),
      (sessionFetch st env).1.alarmAt = st.alarmAt := by
    intro st env
    rcases st with ⟨b, p, lu, rc, al⟩
    rcases env with ⟨i, u, s, n⟩
    cases b <;> cases p <;> cases i <;> cases u <;> cases s <;>
      simp [sessionFetch, SessionState.needsInit, fetchAfterInit,
        SessionState.cleanup]
  refine ⟨?_, hpres⟩
  have gen : ∀ (envs : List RenderEnv) (st : SessionState),
      (runTrace st envs).1.alarmAt = st.alarmAt := by
    intro envs
    induction envs with
    | nil => intro st; simp [runTrace]
    | cons e es ih =>
      intro st
      simp only [runTrace]
      rw [ih (sessionFetch st e).1, hpres st e]
  exact gen envs (SessionState.fresh now)

/-! ## Characters, digits and integer literals

`JSON.stringify` / `JSON.parse` and `atob` are platform built-ins used by
`decodeChartConfig`; they are modelled concretely below over `List Char`.
Characters that the token scanner of this development cannot write as
literals are introduced through `Char.ofNat`. -/

def quoteC : Char := Char.ofNat 34

def lbraceC : Char := Char.ofNat 123

def rbraceC : Char := Char.ofNat 125

def digitChar (d : Nat) : Char := Char.ofNat (48 + d)

def isDigitC (c : Char) : Bool := decide (48 ≤ c.toNat) && decide (c.toNat ≤ 57)

def digitVal (c : Char) : Nat := c.toNat - 48

/-- Little-endian base-10 digits (fuel-indexed helper, enough fuel = the
number itself). -/
def natDigitsRevF : Nat → Nat → List Nat
  | 0, _ => []
  | _ + 1, 0 => []
  | fuel + 1, n + 1 => (n + 1) % 10 :: natDigitsRevF fuel ((n + 1) / 10)

/-- Little-endian base-10 digits of a natural number (empty for 0). -/
def natDigitsRev (n : Nat) : List Nat := natDigitsRevF n n

theorem natDigitsRevF_fuel_irrel :
    ∀ n fuel fuel', n ≤ fuel → n ≤ fuel' →
      natDigitsRevF fuel n = natDigitsRevF fuel' n := by
  intro n
  induction n using Nat.strong_induction_on with
  | _ n ih =>
    intro fuel fuel' h h'
    cases n with
    | zero => cases fuel <;> cases fuel' <;> rfl
    | succ m =>
      cases fuel with
      | zero => omega
      | succ f =>
        cases fuel' with
        | zero => omega
        | succ f' =>
          rw [natDigitsRevF, natDigitsRevF]
          congr 1
          exact ih ((m + 1) / 10) (Nat.div_lt_self (Nat.succ_pos m) (by norm_num))
            f f' (by omega) (by omega)

theorem natDigitsRev_succ (m : Nat) :
    natDigitsRev (m + 1) = (m + 1) % 10 :: natDigitsRev ((m + 1) / 10) := by
  unfold natDigitsRev
  rw [natDigitsRevF]
  congr 1
  exact natDigitsRevF_fuel_irrel ((m + 1) / 10) m ((m + 1) / 10) (by omega) (le_refl _)

/-- Decimal rendering of a natural number. -/
def natToChars (n : Nat) : List Char :=
  if n = 0 then [digitChar 0] else ((natDigitsRev n).reverse).map digitChar

/-- Decimal rendering of an integer. -/
def intToChars (n : Int) : List Char :=
  if n < 0 then '-' :: natToChars n.natAbs else natToChars n.natAbs

/-- Value of a most-significant-first digit-character list. -/
def digitsToNat (ds : List Char) : Nat :=
  ds.foldl (fun acc c => acc * 10 + digitVal c) 0

/-- Value of a little-endian digit list. -/
def valRev : List Nat → Nat
  | [] => 0
  | d :: ds => d + 10 * valRev ds

theorem valRev_natDigitsRev (n : Nat) : valRev (natDigitsRev n) = n := by
  induction n using Nat.strong_induction_on with
  | _ n ih =>
    match n with
    | 0 => simp [natDigitsRev, natDigitsRevF, valRev]
    | m + 1 =>
      rw [natDigitsRev_succ, valRev,
        ih ((m + 1) / 10) (Nat.div_lt_self (Nat.succ_pos m) (by norm_num))]
      omega

theorem natDigitsRev_lt_ten (n : Nat) : ∀ d ∈ natDigitsRev n, d < 10 := by
  induction n using Nat.strong_induction_on with
  | _ n ih =>
    match n with
    | 0 => simp [natDigitsRev, natDigitsRevF]
    | m + 1 =>
      rw [natDigitsRev_succ]
      intro d hd
      rcases List.mem_cons.mp hd with h | h
      · omega
      · exact ih ((m + 1) / 10) (Nat.div_lt_self (Nat.succ_pos m) (by norm_num)) d h

theorem digit_facts : ∀ d < 10,
    isDigitC (digitChar d) = true ∧ digitVal (digitChar d) = d := by decide

theorem foldl_digits_rev (ds : List Nat) (hds : ∀ d ∈ ds, d < 10) :
    ∀ a : Nat, (ds.reverse.map digitChar).foldl (fun acc c => acc * 10 + digitVal c) a =
      a * 10 ^ ds.length + valRev ds := by
  induction ds with
  | nil => intro a; simp [valRev]
  | cons d ds ih =>
    intro a
    have hd : d < 10 := hds d (List.mem_cons_self d ds)
    have hds' : ∀ x ∈ ds, x < 10 := fun x hx => hds x (List.mem_cons_of_mem d hx)
    simp only [List.reverse_cons, List.map_append, List.foldl_append, ih hds' a,
      List.map_cons, List.map_nil, List.foldl_cons, List.foldl_nil, valRev,
      List.length_cons]
    rw [(digit_facts d hd).2]
    ring

theorem digitsToNat_natToChars (n : Nat) : digitsToNat (natToChars n) = n := by
  by_cases h : n = 0
  · subst h; decide
  · rw [natToChars, if_neg h]
    unfold digitsToNat
    rw [foldl_digits_rev (natDigitsRev n) (natDigitsRev_lt_ten n) 0,
      valRev_natDigitsRev]
    ring

theorem natToChars_all_digits (n : Nat) : ∀ c ∈ natToChars n, isDigitC c = true := by
  unfold natToChars
  by_cases h : n = 0
  · subst h; decide
  · rw [if_neg h]
    intro c hc
    rcases List.mem_map.mp hc with ⟨d, hd, rfl⟩
    exact (digit_facts d (natDigitsRev_lt_ten n d (List.mem_reverse.mp hd))).1

theorem natToChars_ne_nil (n : Nat) : natToChars n ≠ [] := by
  unfold natToChars
  by_cases h : n = 0
  · simp [h]
  · rw [if_neg h]
    intro hcon
    have : natDigitsRev n ≠ [] := by
      cases n with
      | zero => exact absurd rfl h
      | succ m => rw [natDigitsRev_succ]; simp
    simp at hcon
    exact this hcon

/-- No leading digit: the continuation after a serialized number must not
start with a decimal digit (greedy number parsing stops correctly). -/
def noLeadingDigit (cs : List Char) : Prop :=
  ∀ c, cs.head? = some c → isDigitC c = false

theorem takeWhile_digits_append (xs rest : List Char)
    (hxs : ∀ c ∈ xs, isDigitC c = true) (hrest : noLeadingDigit rest) :
    (xs ++ rest).takeWhile isDigitC = xs ∧ (xs ++ rest).dropWhile isDigitC = rest := by
  induction xs with
  | nil =>
    simp only [List.nil_append]
    cases rest with
    | nil => simp
    | cons r rs =>
      have := hrest r rfl
      simp [List.takeWhile, List.dropWhile, this]
  | cons x xs ih =>
    have hx : isDigitC x = true := hxs x (List.mem_cons_self x xs)
    have hxs' : ∀ c ∈ xs, isDigitC c = true := fun c hc => hxs c (List.mem_cons_of_mem x hc)
    obtain ⟨h1, h2⟩ := ih hxs'
    simp [List.takeWhile, List.dropWhile, hx, h1, h2]

/-- Greedy decimal-natural prefix of a character stream. -/
def parseNatChars (cs : List Char) : Option (Nat × List Char) :=
  let ds := cs.takeWhile isDigitC
  if ds.isEmpty then none
  else some (digitsToNat ds, cs.dropWhile isDigitC)

theorem parseNatChars_natToChars (n : Nat) (rest : List Char)
    (hrest : noLeadingDigit rest) :
    parseNatChars (natToChars n ++ rest) = some (n, rest) := by
  obtain ⟨h1, h2⟩ := takeWhile_digits_append (natToChars n) rest
    (natToChars_all_digits n) hrest
  unfold parseNatChars
  rw [h1, h2]
  have hne := natToChars_ne_nil n
  simp only [List.isEmpty_iff]
  rw [if_neg hne, digitsToNat_natToChars]

/-- Signed decimal-integer prefix of a character stream. -/
def parseIntChars (cs : List Char) : Option (Int × List Char) :=
  match cs with
  | [] => none
  | c :: cs' =>
    if c = '-' then
      match parseNatChars cs' with
      | some (n, r) => some (-(n : Int), r)
      | none => none
    else
      match parseNatChars (c :: cs') with
      | some (n, r) => some ((n : Int), r)
      | none => none

theorem isDigitC_ne_minus (c : Char) (h : isDigitC c = true) : c ≠ '-' := by
  intro hc
  subst hc
  simp [isDigitC] at h

theorem parseIntChars_intToChars (n : Int) (rest : List Char)
    (hrest : noLeadingDigit rest) :
    parseIntChars (intToChars n ++ rest) = some (n, rest) := by
  unfold intToChars
  by_cases hneg : n < 0
  · rw [if_pos hneg]
    simp only [List.cons_append, parseIntChars, if_pos rfl,
      parseNatChars_natToChars n.natAbs rest hrest]
    have hn : -((n.natAbs : Nat) : Int) = n := by omega
    simp only [List.cons_append] at hn ⊢
    simp [hn, abs_of_nonpos (le_of_lt hneg)]
  · rw [if_neg hneg]
    obtain ⟨c, tl, hct⟩ : ∃ c tl, natToChars n.natAbs = c :: tl := by
      cases hh : natToChars n.natAbs with
      | nil => exact absurd hh (natToChars_ne_nil _)
      | cons c tl => exact ⟨c, tl, rfl⟩
    have hcd : isDigitC c = true := by
      apply natToChars_all_digits n.natAbs
      rw [hct]; exact List.mem_cons_self c tl
    rw [hct]
    simp only [List.cons_append, parseIntChars, if_neg (isDigitC_ne_minus c hcd)]
    rw [← List.cons_append, ← hct, parseNatChars_natToChars n.natAbs rest hrest]
    have hn : ((n.natAbs : Nat) : Int) = n := by omega
    simp [hn]

/-! ## JSON string bodies -/

/-- `JSON.stringify` string-body escaping, restricted to the two characters
whose escaping is needed for an unambiguous round trip (quote and
backslash); control characters are carried raw by this model, matching a
parser that is lenient about them. -/
def escapeChars : List Char → List Char
  | [] => []
  | c :: cs =>
    if c = quoteC ∨ c = '\\' then '\\' :: c :: escapeChars cs
    else c :: escapeChars cs

/-- Parse a string body up to its closing quote, undoing `escapeChars`. -/
def parseStringBody (cs : List Char) : Option (List Char × List Char) :=
  match cs with
  | [] => none
  | c :: cs' =>
    if c = quoteC then some ([], cs')
    else if c = '\\' then
      match cs' with
      | [] => none
      | e :: cs'' =>
        if e = quoteC ∨ e = '\\' then
          match parseStringBody cs'' with
          | some (s, r) => some (e :: s, r)
          | none => none
        else none
    else
      match parseStringBody cs' with
      | some (s, r) => some (c :: s, r)
      | none => none

theorem parseStringBody_escape (s : List Char) (rest : List Char) :
    parseStringBody (escapeChars s ++ quoteC :: rest) = some (s, rest) := by
  induction s with
  | nil =>
    rw [show escapeChars [] = [] from rfl, List.nil_append]
    unfold parseStringBody
    simp
  | cons c cs ih =>
    by_cases hc : c = quoteC ∨ c = '\\'
    · rw [escapeChars, if_pos hc]
      simp only [List.cons_append]
      unfold parseStringBody
      have hbq : ('\\' : Char) ≠ quoteC := by decide
      simp [hbq, hc, ih]
    · rw [escapeChars, if_neg hc]
      push_neg at hc
      simp only [List.cons_append]
      unfold parseStringBody
      simp [hc.1, hc.2, ih]

/-! ## JSON serialization (`JSON.stringify`) -/

mutual
/-- `JSON.stringify` of a value (no insignificant whitespace). -/
def stringify : Json → List Char
  | jNull => 'n' :: 'u' :: 'l' :: 'l' :: []
  | jBool true => 't' :: 'r' :: 'u' :: 'e' :: []
  | jBool false => 'f' :: 'a' :: 'l' :: 's' :: 'e' :: []
  | jNum n => intToChars n
  | jStr s => quoteC :: (escapeChars s.data ++ [quoteC])
  | jArr xs => '[' :: (stringifyElems xs ++ [']'])
  | jObj fs => lbraceC :: (stringifyFields fs ++ [rbraceC])

/-- Comma-separated serialization of array elements. -/
def stringifyElems : List Json → List Char
  | [] => []
  | [x] => stringify x
  | x :: y :: rest => stringify x ++ ',' :: stringifyElems (y :: rest)

/-- Comma-separated serialization of object fields. -/
def stringifyFields : List (String × Json) → List Char
  | [] => []
  | [(k, v)] => quoteC :: (escapeChars k.data ++ (quoteC :: ':' :: stringify v))
  | (k, v) :: f :: rest =>
    (quoteC :: (escapeChars k.data ++ (quoteC :: ':' :: stringify v))) ++
      ',' :: stringifyFields (f :: rest)
end

/-! ## JSON parsing (`JSON.parse`)

Fuel-indexed recursive-descent structure mirroring what `JSON.parse`
accepts on serializer output; it is stricter than the built-in about
whitespace and escape forms the serializer never emits, which no claim
exercises. -/

/-- Continuation after one array element has been parsed: a comma continues
the element list, a closing bracket ends it. -/
def elemsCont (pe : List Char → Option (List Json × List Char))
    (x : Json) (r1 : List Char) : Option (List Json × List Char) :=
  match r1 with
  | [] => none
  | d :: r2 =>
    if d = ',' then
      match pe r2 with
      | some (xs, r3) => some (x :: xs, r3)
      | none => none
    else if d = ']' then some ([x], r2)
    else none

/-- Continuation after one object key has been parsed: expects a colon, a
value, then a comma (more fields) or a closing brace. -/
def fieldsCont (pv : List Char → Option (Json × List Char))
    (pf : List Char → Option (List (String × Json) × List Char))
    (k : List Char) (r1 : List Char) :
    Option (List (String × Json) × List Char) :=
  match r1 with
  | ':' :: r2 =>
    match pv r2 with
    | some (v, r3) =>
      match r3 with
      | [] => none
      | d :: r4 =>
        if d = ',' then
          match pf r4 with
          | some (fs, r5) => some ((String.mk k, v) :: fs, r5)
          | none => none
        else if d = rbraceC then some ([(String.mk k, v)], r4)
        else none
    | none => none
  | _ => none

mutual
def parseVal : Nat → List Char → Option (Json × List Char)
  | 0, _ => none
  | fuel + 1, cs =>
    match cs with
    | [] => none
    | c :: rest =>
      if c = quoteC then
        match parseStringBody rest with
        | some (s, r) => some (jStr (String.mk s), r)
        | none => none
      else if c = '[' then
        match parseElems fuel rest with
        | some (xs, r) => some (jArr xs, r)
        | none => none
      else if c = lbraceC then
        match parseFields fuel rest with
        | some (fs, r) => some (jObj fs, r)
        | none => none
      else if c = 'n' then
        match rest with
        | 'u' :: 'l' :: 'l' :: r => some (jNull, r)
        | _ => none
      else if c = 't' then
        match rest with
        | 'r' :: 'u' :: 'e' :: r => some (jBool true, r)
        | _ => none
      else if c = 'f' then
        match rest with
        | 'a' :: 'l' :: 's' :: 'e' :: r => some (jBool false, r)
        | _ => none
      else
        match parseIntChars (c :: rest) with
        | some (n, r) => some (jNum n, r)
        | none => none

def parseElems : Nat → List Char → Option (List Json × List Char)
  | 0, _ => none
  | fuel + 1, cs =>
    match cs with
    | [] => none
    | c :: r =>
      if c = ']' then some ([], r)
      else
        match parseVal fuel (c :: r) with
        | some (x, r1) => elemsCont (parseElems fuel) x r1
        | none => none

def parseFields : Nat → List Char → Option (List (String × Json) × List Char)
  | 0, _ => none
  | fuel + 1, cs =>
    match cs with
    | [] => none
    | c :: r =>
      if c = rbraceC then some ([], r)
      else if c = quoteC then
        match parseStringBody r with
        | some (k, r1) => fieldsCont (parseVal fuel) (parseFields fuel) k r1
        | none => none
      else none
end

/-- `JSON.parse` over a whole character stream. -/
def parseJson (cs : List Char) : Option Json :=
  match parseVal (cs.length + 1) cs with
  | some (j, []) => some j
  | _ => none

/-! ## Round trip: `JSON.parse` inverts `JSON.stringify` -/

theorem parseVal_eq (fuel : Nat) (c : Char) (rest : List Char) :
    parseVal (fuel + 1) (c :: rest) =
      (if c = quoteC then
        match parseStringBody rest with
        | some (s, r) => some (jStr (String.mk s), r)
        | none => none
      else if c = '[' then
        match parseElems fuel rest with
        | some (xs, r) => some (jArr xs, r)
        | none => none
      else if c = lbraceC then
        match parseFields fuel rest with
        | some (fs, r) => some (jObj fs, r)
        | none => none
      else if c = 'n' then
        match rest with
        | 'u' :: 'l' :: 'l' :: r => some (jNull, r)
        | _ => none
      else if c = 't' then
        match rest with
        | 'r' :: 'u' :: 'e' :: r => some (jBool true, r)
        | _ => none
      else if c = 'f' then
        match rest with
        | 'a' :: 'l' :: 's' :: 'e' :: r => some (jBool false, r)
        | _ => none
      else
        match parseIntChars (c :: rest) with
        | some (n, r) => some (jNum n, r)
        | none => none) := rfl

theorem parseElems_eq (fuel : Nat) (c : Char) (r : List Char) :
    parseElems (fuel + 1) (c :: r) =
      (if c = ']' then some ([], r)
       else
         match parseVal fuel (c :: r) with
         | some (x, r1) => elemsCont (parseElems fuel) x r1
         | none => none) := rfl

theorem parseFields_eq (fuel : Nat) (c : Char) (r : List Char) :
    parseFields (fuel + 1) (c :: r) =
      (if c = rbraceC then some ([], r)
       else if c = quoteC then
         match parseStringBody r with
         | some (k, r1) => fieldsCont (parseVal fuel) (parseFields fuel) k r1
         | none => none
       else none) := rfl

theorem intToChars_head (n : Int) :
    ∃ c tl, intToChars n = c :: tl ∧ (c = '-' ∨ isDigitC c = true) := by
  unfold intToChars
  by_cases h : n < 0
  · rw [if_pos h]
    exact ⟨'-', _, rfl, Or.inl rfl⟩
  · rw [if_neg h]
    cases hh : natToChars n.natAbs with
    | nil => exact absurd hh (natToChars_ne_nil _)
    | cons c tl =>
      refine ⟨c, tl, rfl, Or.inr ?_⟩
      apply natToChars_all_digits
      rw [hh]
      exact List.mem_cons_self c tl

theorem numHead_ne (c : Char) (hc : c = '-' ∨ isDigitC c = true) :
    c ≠ quoteC ∧ c ≠ '[' ∧ c ≠ lbraceC ∧ c ≠ 'n' ∧ c ≠ 't' ∧ c ≠ 'f' ∧
      c ≠ ']' ∧ c ≠ rbraceC := by
  rcases hc with h | h
  · subst h
    refine ⟨by decide, by decide, by decide, by decide, by decide, by decide,
      by decide, by decide⟩
  · refine ⟨?_, ?_, ?_, ?_, ?_, ?_, ?_, ?_⟩ <;>
      (intro he; subst he; revert h; decide)

theorem stringify_head (j : Json) :
    ∃ c tl, stringify j = c :: tl ∧ c ≠ ']' ∧ c ≠ rbraceC := by
  cases j with
  | jNull => exact ⟨'n', _, rfl, by decide, by decide⟩
  | jBool b =>
    cases b
    · exact ⟨'f', _, rfl, by decide, by decide⟩
    · exact ⟨'t', _, rfl, by decide, by decide⟩
  | jNum n =>
    obtain ⟨c, tl, hct, hc⟩ := intToChars_head n
    obtain ⟨_, _, _, _, _, _, h7, h8⟩ := numHead_ne c hc
    exact ⟨c, tl, hct, h7, h8⟩
  | jStr s => exact ⟨quoteC, _, rfl, by decide, by decide⟩
  | jArr xs => exact ⟨'[', _, rfl, by decide, by decide⟩
  | jObj fs => exact ⟨lbraceC, _, rfl, by decide, by decide⟩

theorem stringify_length_pos (j : Json) : 1 ≤ (stringify j).length := by
  obtain ⟨c, tl, hct, _, _⟩ := stringify_head j
  rw [hct]
  simp

theorem stringifyElems_length_pos (x : Json) (l : List Json) :
    1 ≤ (stringifyElems (x :: l)).length := by
  cases l with
  | nil =>
    rw [show stringifyElems [x] = stringify x from rfl]
    exact stringify_length_pos x
  | cons y r =>
    rw [show stringifyElems (x :: y :: r) =
      stringify x ++ ',' :: stringifyElems (y :: r) from rfl]
    have := stringify_length_pos x
    simp
    omega

theorem noLD_cons (c : Char) (r : List Char) (h : isDigitC c = false) :
    noLeadingDigit (c :: r) := by
  intro x hx
  have : c = x := by
    simpa using hx
  subst this
  exact h

theorem noLD_nil : noLeadingDigit [] := by
  intro x hx
  simp at hx

theorem parse_stringify_all :
    ∀ fuel : Nat,
      (∀ j rest, (stringify j).length ≤ fuel → noLeadingDigit rest →
        parseVal fuel (stringify j ++ rest) = some (j, rest)) ∧
      (∀ xs rest, (stringifyElems xs).length + 1 ≤ fuel →
        parseElems fuel (stringifyElems xs ++ ']' :: rest) = some (xs, rest)) ∧
      (∀ fs rest, (stringifyFields fs).length + 1 ≤ fuel →
        parseFields fuel (stringifyFields fs ++ rbraceC :: rest) = some (fs, rest)) := by
  intro fuel
  induction fuel using Nat.strong_induction_on with
  | _ fuel ih =>
    cases fuel with
    | zero =>
      refine ⟨fun j rest hlen _ => ?_, fun xs rest hlen => ?_, fun fs rest hlen => ?_⟩
      · have := stringify_length_pos j
        omega
      · omega
      · omega
    | succ f =>
      obtain ⟨ih1, ih2, ih3⟩ := ih f (Nat.lt_succ_self f)
      refine ⟨?_, ?_, ?_⟩
      · intro j rest hlen hrest
        cases j with
        | jNull => rfl
        | jBool b => cases b <;> rfl
        | jNum n =>
          obtain ⟨c, tl, hct, hc⟩ := intToChars_head n
          obtain ⟨h1, h2, h3, h4, h5, h6, _, _⟩ := numHead_ne c hc
          rw [show stringify (jNum n) = intToChars n from rfl, hct, List.cons_append,
            parseVal_eq, if_neg h1, if_neg h2, if_neg h3, if_neg h4, if_neg h5,
            if_neg h6, ← List.cons_append, ← hct,
            parseIntChars_intToChars n rest hrest]
        | jStr s =>
          obtain ⟨d⟩ := s
          have hin : stringify (jStr (String.mk d)) ++ rest =
              quoteC :: (escapeChars d ++ quoteC :: rest) := by
            rw [show stringify (jStr (String.mk d)) =
              quoteC :: (escapeChars d ++ [quoteC]) from rfl]
            simp
          rw [hin, parseVal_eq, if_pos rfl, parseStringBody_escape]
        | jArr xs =>
          have hin : stringify (jArr xs) ++ rest =
              '[' :: (stringifyElems xs ++ ']' :: rest) := by
            rw [show stringify (jArr xs) =
              '[' :: (stringifyElems xs ++ [']']) from rfl]
            simp
          have hlE : (stringifyElems xs).length + 1 ≤ f := by
            have hL : (stringify (jArr xs)).length =
                (stringifyElems xs).length + 2 := by
              rw [show stringify (jArr xs) =
                '[' :: (stringifyElems xs ++ [']']) from rfl]
              simp
            omega
          rw [hin, parseVal_eq, if_neg (by decide : ¬('[' : Char) = quoteC),
            if_pos rfl, ih2 xs rest hlE]
        | jObj fs =>
          have hin : stringify (jObj fs) ++ rest =
              lbraceC :: (stringifyFields fs ++ rbraceC :: rest) := by
            rw [show stringify (jObj fs) =
              lbraceC :: (stringifyFields fs ++ [rbraceC]) from rfl]
            simp
          have hlF : (stringifyFields fs).length + 1 ≤ f := by
            have hL : (stringify (jObj fs)).length =
                (stringifyFields fs).length + 2 := by
              rw [show stringify (jObj fs) =
                lbraceC :: (stringifyFields fs ++ [rbraceC]) from rfl]
              simp
            omega
          rw [hin, parseVal_eq, if_neg (by decide : ¬lbraceC = quoteC),
            if_neg (by decide : ¬lbraceC = '['), if_pos rfl, ih3 fs rest hlF]
      · intro xs rest hlen
        cases xs with
        | nil => rfl
        | cons x l =>
          obtain ⟨c, tl, hct, hne1, _⟩ := stringify_head x
          cases l with
          | nil =>
            have hin : stringifyElems [x] ++ ']' :: rest = c :: (tl ++ ']' :: rest) := by
              rw [show stringifyElems [x] = stringify x from rfl, hct]
              simp
            have hlx : (stringify x).length ≤ f := by
              rw [show stringifyElems [x] = stringify x from rfl] at hlen
              omega
            rw [hin, parseElems_eq, if_neg hne1, ← List.cons_append, ← hct,
              ih1 x (']' :: rest) hlx (noLD_cons _ _ (by decide))]
            rfl
          | cons y l' =>
            have hE : stringifyElems (x :: y :: l') =
                stringify x ++ ',' :: stringifyElems (y :: l') := rfl
            have hin : stringifyElems (x :: y :: l') ++ ']' :: rest =
                c :: (tl ++ ',' :: (stringifyElems (y :: l') ++ ']' :: rest)) := by
              rw [hE, hct]
              simp
            have hLL : (stringifyElems (x :: y :: l')).length =
                (stringify x).length + 1 + (stringifyElems (y :: l')).length := by
              rw [hE]
              simp
              omega
            have hlx : (stringify x).length ≤ f := by
              have := stringifyElems_length_pos y l'
              omega
            have hlE : (stringifyElems (y :: l')).length + 1 ≤ f := by
              have := stringify_length_pos x
              omega
            rw [hin, parseElems_eq, if_neg hne1, ← List.cons_append, ← hct,
              ih1 x (',' :: (stringifyElems (y :: l') ++ ']' :: rest)) hlx
                (noLD_cons _ _ (by decide))]
            show (if (',' : Char) = ',' then
                match parseElems f (stringifyElems (y :: l') ++ ']' :: rest) with
                | some (xs, r3) => some (x :: xs, r3)
                | none => none
              else if (',' : Char) = ']' then
                some ([x], stringifyElems (y :: l') ++ ']' :: rest)
              else none) = _
            rw [if_pos rfl, ih2 (y :: l') rest hlE]
      · intro fs rest hlen
        cases fs with
        | nil => rfl
        | cons kv l =>
          obtain ⟨k, v⟩ := kv
          obtain ⟨kd⟩ := k
          cases l with
          | nil =>
            have hF : stringifyFields [(String.mk kd, v)] =
                quoteC :: (escapeChars kd ++ (quoteC :: ':' :: stringify v)) := rfl
            have hin : stringifyFields [(String.mk kd, v)] ++ rbraceC :: rest =
                quoteC :: (escapeChars kd ++
                  quoteC :: ':' :: (stringify v ++ rbraceC :: rest)) := by
              rw [hF]
              simp
            have hlv : (stringify v).length ≤ f := by
              have hL : (stringifyFields [(String.mk kd, v)]).length =
                  (escapeChars kd).length + (stringify v).length + 3 := by
                rw [hF]
                simp
                omega
              omega
            rw [hin, parseFields_eq, if_neg (by decide : ¬quoteC = rbraceC),
              if_pos rfl, parseStringBody_escape]
            show (match parseVal f (stringify v ++ rbraceC :: rest) with
                | some (w, r3) =>
                  match r3 with
                  | [] => none
                  | d :: r4 =>
                    if d = ',' then
                      match parseFields f r4 with
                      | some (gs, r5) => some ((String.mk kd, w) :: gs, r5)
                      | none => none
                    else if d = rbraceC then some ([(String.mk kd, w)], r4)
                    else none
                | none => none) = _
            rw [ih1 v (rbraceC :: rest) hlv (noLD_cons _ _ (by decide))]
            rfl
          | cons kv2 l' =>
            have hF : stringifyFields ((String.mk kd, v) :: kv2 :: l') =
                (quoteC :: (escapeChars kd ++ (quoteC :: ':' :: stringify v))) ++
                  ',' :: stringifyFields (kv2 :: l') := rfl
            have hin : stringifyFields ((String.mk kd, v) :: kv2 :: l') ++
                  rbraceC :: rest =
                quoteC :: (escapeChars kd ++ quoteC :: ':' ::
                  (stringify v ++ ',' ::
                    (stringifyFields (kv2 :: l') ++ rbraceC :: rest))) := by
              rw [hF]
              simp
            have hFpos : 1 ≤ (stringifyFields (kv2 :: l')).length := by
              obtain ⟨k2, v2⟩ := kv2
              cases l' <;> simp [stringifyFields]
            have hLL : (stringifyFields ((String.mk kd, v) :: kv2 :: l')).length =
                (escapeChars kd).length + (stringify v).length + 4 +
                  (stringifyFields (kv2 :: l')).length := by
              rw [hF]
              simp
              omega
            have hlv : (stringify v).length ≤ f := by
              omega
            have hlF : (stringifyFields (kv2 :: l')).length + 1 ≤ f := by
              have := stringify_length_pos v
              omega
            rw [hin, parseFields_eq, if_neg (by decide : ¬quoteC = rbraceC),
              if_pos rfl, parseStringBody_escape]
            show (match parseVal f (stringify v ++ ',' ::
                  (stringifyFields (kv2 :: l') ++ rbraceC :: rest)) with
                | some (w, r3) =>
                  match r3 with
                  | [] => none
                  | d :: r4 =>
                    if d = ',' then
                      match parseFields f r4 with
                      | some (gs, r5) => some ((String.mk kd, w) :: gs, r5)
                      | none => none
                    else if d = rbraceC then some ([(String.mk kd, w)], r4)
                    else none
                | none => none) = _
            rw [ih1 v (',' :: (stringifyFields (kv2 :: l') ++ rbraceC :: rest)) hlv
              (noLD_cons _ _ (by decide))]
            show (if (',' : Char) = ',' then
                match parseFields f (stringifyFields (kv2 :: l') ++ rbraceC :: rest) with
                | some (gs, r5) => some ((String.mk kd, v) :: gs, r5)
                | none => none
              else if (',' : Char) = rbraceC then
                some ([(String.mk kd, v)], stringifyFields (kv2 :: l') ++ rbraceC :: rest)
              else none) = _
            rw [if_pos rfl, ih3 (kv2 :: l') rest hlF]

/-- `JSON.parse (JSON.stringify j) = j` in the model. -/
theorem parseJson_stringify (j : Json) : parseJson (stringify j) = some j := by
  unfold parseJson
  have h := (parse_stringify_all ((stringify j).length + 1)).1 j [] (by omega) noLD_nil
  rw [List.append_nil] at h
  rw [h]

/-! ## Base64 (`btoa` / `atob`)

`btoa` operates on JavaScript binary strings (all code units below 256) and
throws otherwise, modelled by `Option`; `atob` decodes, yielding a string
of byte-valued characters. -/

/-- The base64 alphabet character for a sextet. -/
def b64Char (n : Nat) : Char :=
  if n < 26 then Char.ofNat (65 + n)
  else if n < 52 then Char.ofNat (97 + (n - 26))
  else if n < 62 then Char.ofNat (48 + (n - 52))
  else if n = 62 then '+'
  else '/'

/-- Index of a base64 alphabet character. -/
def b64Index (c : Char) : Option Nat :=
  if 65 ≤ c.toNat ∧ c.toNat ≤ 90 then some (c.toNat - 65)
  else if 97 ≤ c.toNat ∧ c.toNat ≤ 122 then some (26 + (c.toNat - 97))
  else if 48 ≤ c.toNat ∧ c.toNat ≤ 57 then some (52 + (c.toNat - 48))
  else if c = '+' then some 62
  else if c = '/' then some 63
  else none

theorem b64Index_b64Char : ∀ n < 64, b64Index (b64Char n) = some n := by decide

theorem b64Char_ne_eq : ∀ n < 64, (b64Char n = '=') = False := by decide

/-- Base64-encode a byte list (with `=` padding). -/
def btoaBytes : List Nat → List Char
  | [] => []
  | [a] => [b64Char (a / 4), b64Char (a % 4 * 16), '=', '=']
  | [a, b] => [b64Char (a / 4), b64Char (a % 4 * 16 + b / 16), b64Char (b % 16 * 4), '=']
  | a :: b :: c :: rest =>
    b64Char (a / 4) :: b64Char (a % 4 * 16 + b / 16) ::
      b64Char (b % 16 * 4 + c / 64) :: b64Char (c % 64) :: btoaBytes rest

/-- `btoa`: base64-encode a binary string; throws (`none`) when a character
exceeds code point 255. -/
def btoa (s : List Char) : Option (List Char) :=
  if s.all (fun c => decide (c.toNat < 256)) then
    some (btoaBytes (s.map Char.toNat))
  else none

/-- Base64-decode into a byte list (`none` on malformed input). -/
def atobBytes : List Char → Option (List Nat)
  | [] => some []
  | c1 :: c2 :: c3 :: c4 :: rest =>
    match b64Index c1, b64Index c2 with
    | some w, some x =>
      if c3 = '=' then
        if c4 = '=' ∧ rest = [] then some [w * 4 + x / 16] else none
      else
        match b64Index c3 with
        | some y =>
          if c4 = '=' then
            if rest = [] then some [w * 4 + x / 16, x % 16 * 16 + y / 4] else none
          else
            match b64Index c4, atobBytes rest with
            | some z, some bs =>
              some ((w * 4 + x / 16) :: (x % 16 * 16 + y / 4) :: (y % 4 * 64 + z) :: bs)
            | _, _ => none
        | none => none
    | _, _ => none
  | _ => none

/-- `atob`: base64-decode to a binary string. -/
def atob (s : List Char) : Option (List Char) :=
  match atobBytes s with
  | some bs => some (bs.map Char.ofNat)
  | none => none

theorem atobBytes_btoaBytes (bs : List Nat) (h : ∀ b ∈ bs, b < 256) :
    atobBytes (btoaBytes bs) = some bs := by
  induction bs using btoaBytes.induct with
  | case1 => rfl
  | case2 a =>
    have ha : a < 256 := h a (by simp)
    rw [btoaBytes, atobBytes,
      b64Index_b64Char (a / 4) (by omega),
      b64Index_b64Char (a % 4 * 16) (by omega)]
    simp only [if_pos rfl, and_self, if_pos]
    congr 2
    omega
  | case3 a b =>
    have ha : a < 256 := h a (by simp)
    have hb : b < 256 := h b (by simp)
    rw [btoaBytes, atobBytes,
      b64Index_b64Char (a / 4) (by omega),
      b64Index_b64Char (a % 4 * 16 + b / 16) (by omega)]
    have h3 : (b64Char (b % 16 * 4) = '=') = False := b64Char_ne_eq _ (by omega)
    simp only [h3, if_false, b64Index_b64Char (b % 16 * 4) (by omega),
      if_pos rfl, if_pos rfl]
    simp only [if_true, Option.some.injEq, List.cons.injEq, eq_self_iff_true,
      and_true]
    omega
  | case4 a b c rest ih =>
    have ha : a < 256 := h a (by simp)
    have hb : b < 256 := h b (by simp)
    have hc : c < 256 := h c (by simp)
    have hrest : ∀ x ∈ rest, x < 256 := fun x hx => h x (by simp [hx])
    rw [btoaBytes, atobBytes,
      b64Index_b64Char (a / 4) (by omega),
      b64Index_b64Char (a % 4 * 16 + b / 16) (by omega)]
    have h3 : (b64Char (b % 16 * 4 + c / 64) = '=') = False := b64Char_ne_eq _ (by omega)
    have h4 : (b64Char (c % 64) = '=') = False := b64Char_ne_eq _ (by omega)
    simp only [h3, h4, if_false, b64Index_b64Char (b % 16 * 4 + c / 64) (by omega),
      b64Index_b64Char (c % 64) (by omega), ih hrest]
    simp only [Option.some.injEq, List.cons.injEq, eq_self_iff_true, and_true]
    omega

/-- `atob (btoa s) = s` for binary strings. -/
theorem atob_btoa (s : List Char) (h : ∀ c ∈ s, c.toNat < 256) :
    ∃ b, btoa s = some b ∧ atob b = some s := by
  have hall : s.all (fun c => decide (c.toNat < 256)) = true := by
    rw [List.all_eq_true]
    intro c hc
    exact decide_eq_true (h c hc)
  refine ⟨btoaBytes (s.map Char.toNat), ?_, ?_⟩
  · rw [btoa, if_pos hall]
  · have hb : ∀ b ∈ s.map Char.toNat, b < 256 := by
      intro b hb
      rcases List.mem_map.mp hb with ⟨c, hc, rfl⟩
      exact h c hc
    rw [atob, atobBytes_btoaBytes _ hb]
    show some (List.map Char.ofNat (List.map Char.toNat s)) = some s
    congr 1
    rw [List.map_map]
    have : (Char.ofNat ∘ Char.toNat) = fun c : Char => Char.ofNat c.toNat := rfl
    rw [this]
    conv_rhs => rw [← List.map_id s]
    apply List.map_congr_left
    intro c _
    exact Char.ofNat_toNat c

/-! ## `decodeChartConfig` (src/index.js lines 278-287) -/

/-- The strict-equality test `encoding === 'base64'`. -/
def isBase64Enc : Json → Bool
  | jStr e => e == "base64"
  | _ => false

/-- `decodeChartConfig(chart, encoding)`: with base64 encoding, `atob` then
`JSON.parse`; otherwise parse a string directly or pass a structured value
through unchanged.  Thrown decode/parse errors are modelled by `none`
(`atob` applied to a non-string coerces and then fails to parse — also
`none`). -/
def decodeChartConfig (chart : Json) (encoding : Json) : Option Json :=
  if isBase64Enc encoding then
    match chart with
    | jStr s =>
      match atob s.data with
      | some d => parseJson d
      | none => none
    | _ => none
  else
    match chart with
    | jStr s => parseJson s.data
    | c => some c

/-- C5: for every ChartSpec value `spec` (whose serialization is a binary
string, as `btoa` requires), decoding the base64 encoding of its JSON
serialization with encoding "base64" yields `spec` again, and decoding
the serialization itself with the default "url" encoding also yields
`spec`. -/
theorem C5_decode_roundtrip (spec : Json)
    (h : ∀ c ∈ stringify spec, c.toNat < 256) :
    (∃ b, btoa (stringify spec) = some b ∧
      decodeChartConfig (jStr (String.mk b)) (jStr "base64") = some spec) ∧
    decodeChartConfig (jStr (String.mk (stringify spec))) (jStr "url") = some spec := by
  constructor
  · obtain ⟨b, hb, hd⟩ := atob_btoa (stringify spec) h
    refine ⟨b, hb, ?_⟩
    unfold decodeChartConfig
    rw [if_pos (show isBase64Enc (jStr "base64") = true from rfl)]
    show (match atob b with | some d => parseJson d | none => none) = some spec
    rw [hd]
    exact parseJson_stringify spec
  · unfold decodeChartConfig
    rw [if_neg (show ¬isBase64Enc (jStr "url") = true by decide)]
    show parseJson (stringify spec) = some spec
    exact parseJson_stringify spec

/-- A sample ChartSpec used to instantiate hypothesis-bearing theorems. -/
def sampleSpec : Json :=
  jObj [("type", jStr "bar"),
        ("data", jObj [("labels", jArr [jStr "A", jStr "B"]),
                       ("datasets", jArr [jObj [("data", jArr [jNum 1, jNum 2])]])]),
        ("options", jObj [("width", jNum 500), ("height", jNum 300)])]

/-- Concrete instance of `C5_decode_roundtrip` on `sampleSpec`. -/
theorem C5_decode_roundtrip_witness :
    (∃ b, btoa (stringify sampleSpec) = some b ∧
      decodeChartConfig (jStr (String.mk b)) (jStr "base64") = some sampleSpec) ∧
    decodeChartConfig (jStr (String.mk (stringify sampleSpec))) (jStr "url") =
      some sampleSpec :=
  C5_decode_roundtrip sampleSpec (by decide)

/-! ## Request normalization (src/index.js lines 243-313) -/

/-- The four option values extracted by `parseChartParameters`. -/
structure RawOptions where
  width : Json
  height : Json
  backgroundColor : Json
  encoding : Json
  deriving Repr

/-- `params.get(k)`: `null` when absent, else the string value. -/
def qget (q : List (String × String)) (k : String) : Json :=
  match q.lookup k with
  | some v => jStr v
  | none => jNull

/-- `parseChartParameters` (lines 243-270): alias resolution for POST JSON
bodies and GET query strings; any other method leaves `chart` undefined
and options empty. -/
def parseChartParameters (method : String) (body : List (String × Json))
    (query : List (String × String)) : Json × RawOptions :=
  if method = "POST" then
    (jsOr (getField body "c") (getField body "chart"),
     { width := jsOr (getField body "w") (getField body "width"),
       height := jsOr (getField body "h") (getField body "height"),
       backgroundColor := jsOr (getField body "backgroundColor") (getField body "bkg"),
       encoding := jsOr (getField body "encoding") (jStr "url") })
  else if method = "GET" then
    (jsOr (qget query "c") (qget query "chart"),
     { width := jsOr (qget query "w") (qget query "width"),
       height := jsOr (qget query "h") (qget query "height"),
       backgroundColor := jsOr (qget query "backgroundColor") (qget query "bkg"),
       encoding := jsOr (qget query "encoding") (jStr "url") })
  else
    (jNull,
     { width := jNull, height := jNull, backgroundColor := jNull, encoding := jNull })

/-- Leading signed decimal prefix of a string, as `parseInt(s, 10)`. -/
def parseIntPrefix (cs : List Char) : Option Int :=
  match cs with
  | [] => none
  | c :: rest =>
    if c = '-' then
      if (rest.takeWhile isDigitC).isEmpty then none
      else some (-(digitsToNat (rest.takeWhile isDigitC) : Int))
    else if c = '+' then
      if (rest.takeWhile isDigitC).isEmpty then none
      else some ((digitsToNat (rest.takeWhile isDigitC) : Int))
    else
      if ((c :: rest).takeWhile isDigitC).isEmpty then none
      else some ((digitsToNat ((c :: rest).takeWhile isDigitC) : Int))

/-- `parseInt(v, 10)`: integers pass through, strings parse their leading
decimal prefix; a `NaN` result is modelled as `null`, which has the same
truthiness and the same `|| default` behaviour downstream. -/
def parseIntJS : Json → Json
  | jNum n => jNum n
  | jStr s =>
    match parseIntPrefix s.data with
    | some n => jNum n
    | none => jNull
  | _ => jNull

/-- JS property assignment on an object field list: overwrite the existing
key in place, else append. -/
def setKey : List (String × Json) → String → Json → List (String × Json)
  | [], k, v => [(k, v)]
  | (k', v') :: rest, k, v =>
    if k' = k then (k, v) :: rest else (k', v') :: setKey rest k v

/-- Statement 1 of `applyChartOptions` (line 296):
`if (!chartConfig.options) chartConfig.options = {}`. -/
def applyStage1 (cfg : List (String × Json)) : List (String × Json) :=
  if truthy (getField cfg "options") then cfg
  else setKey cfg "options" (jObj [])

/-- Statement 2 (lines 299-301): conditional width assignment.  The
non-object fallthrough corresponds to a property write on a primitive
value (a TypeError under strict mode), excluded by `optionsFieldOk`. -/
def applyStage2 (cfg : List (String × Json)) (o : RawOptions) :
    List (String × Json) :=
  if truthy o.width then
    match getField cfg "options" with
    | jObj fs => setKey cfg "options" (jObj (setKey fs "width" (parseIntJS o.width)))
    | _ => cfg
  else cfg

/-- Statement 3 (lines 302-304): conditional height assignment. -/
def applyStage3 (cfg : List (String × Json)) (o : RawOptions) :
    List (String × Json) :=
  if truthy o.height then
    match getField cfg "options" with
    | jObj fs => setKey cfg "options" (jObj (setKey fs "height" (parseIntJS o.height)))
    | _ => cfg
  else cfg

/-- Statements 4-5 (lines 307-310): conditional backgroundColor assignment
under `options.plugins` (creating the plugins object when falsy). -/
def applyStage4 (cfg : List (String × Json)) (o : RawOptions) :
    List (String × Json) :=
  if truthy o.backgroundColor then
    match getField cfg "options" with
    | jObj fs =>
      match getField fs "plugins" with
      | jObj ps =>
        setKey cfg "options" (jObj (setKey fs "plugins"
          (jObj (setKey ps "backgroundColor" o.backgroundColor))))
      | p =>
        if truthy p then cfg
        else
          setKey cfg "options" (jObj (setKey fs "plugins"
            (jObj [("backgroundColor", o.backgroundColor)])))
    | _ => cfg
  else cfg

/-- `applyChartOptions` (lines 295-313) on an object chart config: the four
sequential mutation statements in source order. -/
def applyChartOptions (cfg : List (String × Json)) (o : RawOptions) :
    List (String × Json) :=
  applyStage4 (applyStage3 (applyStage2 (applyStage1 cfg) o) o) o

/-- `applyChartOptions` lifted to a JSON value. -/
def applyChartOptionsJ (cfg : Json) (o : RawOptions) : Json :=
  match cfg with
  | jObj fs => jObj (applyChartOptions fs o)
  | v => v

/-- The `options` sub-object of a config (empty if absent or not an object). -/
def optsOf (cfg : List (String × Json)) : List (String × Json) :=
  match getField cfg "options" with
  | jObj fs => fs
  | _ => []

/-- The `plugins` sub-object of an options object. -/
def pluginsIn (fs : List (String × Json)) : List (String × Json) :=
  match getField fs "plugins" with
  | jObj ps => ps
  | _ => []

/-- The `options` field of the config is an object, or falsy (so that the
`!chartConfig.options` guard replaces it by a fresh object). -/
def optionsFieldOk (cfg : List (String × Json)) : Prop :=
  match getField cfg "options" with
  | jObj _ => True
  | v => truthy v = false

/-- If the `options` field is an object, its `plugins` entry is an object
or falsy. -/
def pluginsFieldOk (cfg : List (String × Json)) : Prop :=
  match getField cfg "options" with
  | jObj fs =>
    match getField fs "plugins" with
    | jObj _ => True
    | p => truthy p = false
  | _ => True

/-- Effect of the width merge on the options object. -/
def stepW (fs : List (String × Json)) (o : RawOptions) : List (String × Json) :=
  if truthy o.width then setKey fs "width" (parseIntJS o.width) else fs

/-- Effect of the height merge on the options object. -/
def stepH (fs : List (String × Json)) (o : RawOptions) : List (String × Json) :=
  if truthy o.height then setKey fs "height" (parseIntJS o.height) else fs

/-- Effect of the backgroundColor merge on the options object. -/
def stepBG (fs : List (String × Json)) (o : RawOptions) : List (String × Json) :=
  if truthy o.backgroundColor then
    setKey fs "plugins"
      (jObj (setKey (pluginsIn fs) "backgroundColor" o.backgroundColor))
  else fs

/-! ## Frame lemmas for property assignment -/

theorem getField_setKey_self (l : List (String × Json)) (k : String) (v : Json) :
    getField (setKey l k v) k = v := by
  induction l with
  | nil => simp [setKey, getField, List.lookup]
  | cons p rest ih =>
    obtain ⟨k', v'⟩ := p
    by_cases hk : k' = k
    · subst hk
      simp [setKey, getField, List.lookup]
    · simp only [setKey, if_neg hk]
      unfold getField at ih ⊢
      simp only [List.lookup]
      have : (k == k') = false := by
        simp [Ne.symm hk]
      rw [this]
      exact ih

theorem getField_setKey_other (l : List (String × Json)) (k k' : String) (v : Json)
    (h : k' ≠ k) : getField (setKey l k v) k' = getField l k' := by
  induction l with
  | nil =>
    simp only [setKey]
    unfold getField
    simp only [List.lookup]
    have h1 : (k' == k) = false := by simp [h]
    rw [h1]
  | cons p rest ih =>
    obtain ⟨k1, v1⟩ := p
    by_cases hk : k1 = k
    · simp only [setKey, if_pos hk]
      unfold getField
      simp only [List.lookup]
      have h1 : (k' == k) = false := by simp [h]
      have h2 : (k' == k1) = false := by
        rw [hk]
        simp [h]
      rw [h1, h2]
    · simp only [setKey, if_neg hk]
      unfold getField at ih ⊢
      simp only [List.lookup]
      cases hkk : (k' == k1) with
      | true => rfl
      | false => exact ih

theorem setKey_lookup_self (l : List (String × Json)) (k : String) (v : Json)
    (h : l.lookup k = some v) : setKey l k v = l := by
  induction l with
  | nil => simp [List.lookup] at h
  | cons p rest ih =>
    obtain ⟨k1, v1⟩ := p
    by_cases hk : k1 = k
    · subst hk
      have hv : v1 = v := by
        simp [List.lookup] at h
        exact h
      subst hv
      simp [setKey]
    · have h' : List.lookup k rest = some v := by
        simp only [List.lookup] at h
        have hb : (k == k1) = false := by simp [Ne.symm hk]
        rw [hb] at h
        exact h
      simp [setKey, hk, ih h']

theorem setKey_setKey (l : List (String × Json)) (k : String) (a b : Json) :
    setKey (setKey l k a) k b = setKey l k b := by
  induction l with
  | nil => simp [setKey]
  | cons p rest ih =>
    obtain ⟨k1, v1⟩ := p
    by_cases hk : k1 = k
    · simp [setKey, hk]
    · simp [setKey, hk, ih]

theorem lookup_of_getField_obj (l : List (String × Json)) (k : String)
    (fs : List (String × Json)) (h : getField l k = jObj fs) :
    l.lookup k = some (jObj fs) := by
  unfold getField at h
  cases hl : l.lookup k with
  | none => rw [hl] at h; exact absurd h (by simp)
  | some w =>
    rw [hl] at h
    simp at h
    rw [h]

theorem getField_stepW (fs : List (String × Json)) (o : RawOptions) (k : String)
    (h : k ≠ "width") : getField (stepW fs o) k = getField fs k := by
  unfold stepW
  split
  · exact getField_setKey_other _ _ _ _ h
  · rfl

theorem getField_stepH (fs : List (String × Json)) (o : RawOptions) (k : String)
    (h : k ≠ "height") : getField (stepH fs o) k = getField fs k := by
  unfold stepH
  split
  · exact getField_setKey_other _ _ _ _ h
  · rfl

theorem applyStage1_char (cfg : List (String × Json)) (hopt : optionsFieldOk cfg) :
    applyStage1 cfg = setKey cfg "options" (jObj (optsOf cfg)) := by
  unfold applyStage1 optsOf
  unfold optionsFieldOk at hopt
  by_cases ht : truthy (getField cfg "options") = true
  · rw [if_pos ht]
    cases hv : getField cfg "options" with
    | jObj fs =>
      show cfg = setKey cfg "options" (jObj fs)
      exact (setKey_lookup_self cfg "options" (jObj fs)
        (lookup_of_getField_obj cfg "options" fs hv)).symm
    | jNull => rw [hv] at ht; simp [truthy] at ht
    | jBool b => rw [hv] at hopt ht; simp [truthy] at hopt ht; simp [hopt] at ht
    | jNum n => rw [hv] at hopt ht; simp [truthy] at hopt ht; exact absurd hopt ht
    | jStr str => rw [hv] at hopt ht; simp [truthy] at hopt ht; exact absurd hopt ht
    | jArr xs => rw [hv] at hopt; simp [truthy] at hopt
  · rw [if_neg ht]
    cases hv : getField cfg "options" with
    | jObj fs => exact absurd (by rw [hv]; rfl) ht
    | jNull => rfl
    | jBool b => rfl
    | jNum n => rfl
    | jStr str => rfl
    | jArr xs => exact absurd (by rw [hv]; rfl) ht

theorem applyStage2_char (cfg : List (String × Json)) (fs : List (String × Json))
    (o : RawOptions) :
    applyStage2 (setKey cfg "options" (jObj fs)) o =
      setKey cfg "options" (jObj (stepW fs o)) := by
  unfold applyStage2 stepW
  cases hw : truthy o.width with
  | false => rfl
  | true =>
    simp only [getField_setKey_self]
    exact setKey_setKey cfg "options" (jObj fs) _

theorem applyStage3_char (cfg : List (String × Json)) (fs : List (String × Json))
    (o : RawOptions) :
    applyStage3 (setKey cfg "options" (jObj fs)) o =
      setKey cfg "options" (jObj (stepH fs o)) := by
  unfold applyStage3 stepH
  cases hh : truthy o.height with
  | false => rfl
  | true =>
    simp only [getField_setKey_self]
    exact setKey_setKey cfg "options" (jObj fs) _

theorem applyStage4_char (cfg : List (String × Json)) (fs : List (String × Json))
    (o : RawOptions)
    (hplug : match getField fs "plugins" with
             | jObj _ => True
             | p => truthy p = false) :
    applyStage4 (setKey cfg "options" (jObj fs)) o =
      setKey cfg "options" (jObj (stepBG fs o)) := by
  unfold applyStage4 stepBG pluginsIn
  cases hbg : truthy o.backgroundColor with
  | false => rfl
  | true =>
    simp only [getField_setKey_self]
    cases hp : getField fs "plugins" with
    | jObj ps => exact setKey_setKey cfg "options" (jObj fs) _
    | jNull => exact setKey_setKey cfg "options" (jObj fs) _
    | jBool b =>
      rw [hp] at hplug
      simp [truthy] at hplug
      subst hplug
      exact setKey_setKey cfg "options" (jObj fs) _
    | jNum n =>
      rw [hp] at hplug
      simp [truthy] at hplug
      subst hplug
      exact setKey_setKey cfg "options" (jObj fs) _
    | jStr str =>
      rw [hp] at hplug
      simp [truthy] at hplug
      subst hplug
      exact setKey_setKey cfg "options" (jObj fs) _
    | jArr xs =>
      rw [hp] at hplug
      simp [truthy] at hplug

/-- Characterization of `applyChartOptions`: it rewrites the `options`
field to the original options object with the three conditional merges
applied, and touches nothing else. -/
theorem applyChartOptions_char (cfg : List (String × Json)) (o : RawOptions)
    (hopt : optionsFieldOk cfg) (hplug : pluginsFieldOk cfg) :
    applyChartOptions cfg o =
      setKey cfg "options"
        (jObj (stepBG (stepH (stepW (optsOf cfg) o) o) o)) := by
  have hplug0 : (match getField (stepH (stepW (optsOf cfg) o) o) "plugins" with
      | jObj _ => True
      | p => truthy p = false) := by
    rw [getField_stepH _ _ _ (by decide), getField_stepW _ _ _ (by decide)]
    unfold pluginsFieldOk at hplug
    unfold optsOf
    cases hv : getField cfg "options" with
    | jObj fs => rw [hv] at hplug; exact hplug
    | jNull => simp [getField, List.lookup, truthy]
    | jBool b => simp [getField, List.lookup, truthy]
    | jNum n => simp [getField, List.lookup, truthy]
    | jStr str => simp [getField, List.lookup, truthy]
    | jArr xs => simp [getField, List.lookup, truthy]
  unfold applyChartOptions
  rw [applyStage1_char cfg hopt, applyStage2_char, applyStage3_char,
    applyStage4_char _ _ _ hplug0]

theorem stepW_pos (fs : List (String × Json)) (o : RawOptions)
    (hw : truthy o.width = true) :
    stepW fs o = setKey fs "width" (parseIntJS o.width) := by
  unfold stepW
  rw [hw]
  simp

theorem stepW_neg (fs : List (String × Json)) (o : RawOptions)
    (hw : truthy o.width = false) : stepW fs o = fs := by
  unfold stepW
  rw [hw]
  simp

theorem stepH_pos (fs : List (String × Json)) (o : RawOptions)
    (hh : truthy o.height = true) :
    stepH fs o = setKey fs "height" (parseIntJS o.height) := by
  unfold stepH
  rw [hh]
  simp

theorem stepH_neg (fs : List (String × Json)) (o : RawOptions)
    (hh : truthy o.height = false) : stepH fs o = fs := by
  unfold stepH
  rw [hh]
  simp

theorem stepBG_pos (fs : List (String × Json)) (o : RawOptions)
    (hb : truthy o.backgroundColor = true) :
    stepBG fs o = setKey fs "plugins"
      (jObj (setKey (pluginsIn fs) "backgroundColor" o.backgroundColor)) := by
  unfold stepBG
  rw [hb]
  simp

theorem stepBG_neg (fs : List (String × Json)) (o : RawOptions)
    (hb : truthy o.backgroundColor = false) : stepBG fs o = fs := by
  unfold stepBG
  rw [hb]
  simp

theorem getField_stepBG (fs : List (String × Json)) (o : RawOptions) (k : String)
    (h : k ≠ "plugins") : getField (stepBG fs o) k = getField fs k := by
  unfold stepBG
  split
  · exact getField_setKey_other _ _ _ _ h
  · rfl

/-- C9: `applyChartOptions` modifies at most `options.width` (parsed as an
integer), `options.height` (parsed as an integer) and the nested
`options.plugins.backgroundColor`; a falsy numeric option leaves the
corresponding field exactly as it was, and every other field of the
config, of its options map, and of its plugins map is unchanged.  The
hypotheses restrict to configs whose `options` (and `options.plugins`)
entries are objects or falsy — the shapes on which the JS property writes
are defined. -/
theorem C9_applyChartOptions_frame (cfg : List (String × Json)) (o : RawOptions)
    (hopt : optionsFieldOk cfg) (hplug : pluginsFieldOk cfg) :
    (∀ k, k ≠ "options" →
      getField (applyChartOptions cfg o) k = getField cfg k) ∧
    (∀ k, k ≠ "width" → k ≠ "height" → k ≠ "plugins" →
      getField (optsOf (applyChartOptions cfg o)) k = getField (optsOf cfg) k) ∧
    (truthy o.width = true →
      getField (optsOf (applyChartOptions cfg o)) "width" = parseIntJS o.width) ∧
    (truthy o.width = false →
      getField (optsOf (applyChartOptions cfg o)) "width" =
        getField (optsOf cfg) "width") ∧
    (truthy o.height = true →
      getField (optsOf (applyChartOptions cfg o)) "height" = parseIntJS o.height) ∧
    (truthy o.height = false →
      getField (optsOf (applyChartOptions cfg o)) "height" =
        getField (optsOf cfg) "height") ∧
    (∀ k, k ≠ "backgroundColor" →
      getField (pluginsIn (optsOf (applyChartOptions cfg o))) k =
        getField (pluginsIn (optsOf cfg)) k) ∧
    (truthy o.backgroundColor = true →
      getField (pluginsIn (optsOf (applyChartOptions cfg o))) "backgroundColor" =
        o.backgroundColor) ∧
    (truthy o.backgroundColor = false →
      getField (pluginsIn (optsOf (applyChartOptions cfg o))) "backgroundColor" =
        getField (pluginsIn (optsOf cfg)) "backgroundColor") := by
  have hchar := applyChartOptions_char cfg o hopt hplug
  have hopts : optsOf (applyChartOptions cfg o) =
      stepBG (stepH (stepW (optsOf cfg) o) o) o := by
    rw [hchar]
    unfold optsOf
    rw [getField_setKey_self]
  have hplugs2 : getField (stepH (stepW (optsOf cfg) o) o) "plugins" =
      getField (optsOf cfg) "plugins" := by
    rw [getField_stepH _ _ _ (by decide), getField_stepW _ _ _ (by decide)]
  have hplugIn2 : pluginsIn (stepH (stepW (optsOf cfg) o) o) = pluginsIn (optsOf cfg) := by
    unfold pluginsIn
    rw [hplugs2]
  refine ⟨?_, ?_, ?_, ?_, ?_, ?_, ?_, ?_, ?_⟩
  · intro k hk
    rw [hchar, getField_setKey_other _ _ _ _ hk]
  · intro k hw hh hp
    rw [hopts, getField_stepBG _ _ _ hp, getField_stepH _ _ _ hh,
      getField_stepW _ _ _ hw]
  · intro hw
    rw [hopts, getField_stepBG _ _ _ (by decide), getField_stepH _ _ _ (by decide),
      stepW_pos _ _ hw, getField_setKey_self]
  · intro hw
    rw [hopts, getField_stepBG _ _ _ (by decide), getField_stepH _ _ _ (by decide),
      stepW_neg _ _ hw]
  · intro hh
    rw [hopts, getField_stepBG _ _ _ (by decide), stepH_pos _ _ hh,
      getField_setKey_self]
  · intro hh
    rw [hopts, getField_stepBG _ _ _ (by decide), stepH_neg _ _ hh,
      getField_stepW _ _ _ (by decide)]
  · intro k hk
    rw [hopts]
    cases hbg : truthy o.backgroundColor with
    | false =>
      rw [stepBG_neg _ _ hbg]
      unfold pluginsIn
      rw [hplugs2]
    | true =>
      rw [stepBG_pos _ _ hbg]
      unfold pluginsIn
      rw [getField_setKey_self]
      show getField (setKey (pluginsIn (stepH (stepW (optsOf cfg) o) o))
        "backgroundColor" o.backgroundColor) k = _
      rw [getField_setKey_other _ _ _ _ hk, hplugIn2]
      rfl
  · intro hbg
    rw [hopts, stepBG_pos _ _ hbg]
    unfold pluginsIn
    rw [getField_setKey_self]
    show getField (setKey (pluginsIn (stepH (stepW (optsOf cfg) o) o))
      "backgroundColor" o.backgroundColor) "backgroundColor" = _
    rw [getField_setKey_self]
  · intro hbg
    rw [hopts, stepBG_neg _ _ hbg]
    unfold pluginsIn
    rw [hplugs2]

/-- Concrete config and options instantiating the frame theorem. -/
def cfgW : List (String × Json) := [("type", jStr "bar"), ("data", jArr [jNum 1])]

def oW : RawOptions :=
  { width := jStr "250", height := jNull, backgroundColor := jStr "white",
    encoding := jStr "url" }

/-- Concrete instance of `C9_applyChartOptions_frame` on `cfgW`, `oW`. -/
theorem C9_applyChartOptions_frame_witness :
    (∀ k, k ≠ "options" →
      getField (applyChartOptions cfgW oW) k = getField cfgW k) ∧
    (∀ k, k ≠ "width" → k ≠ "height" → k ≠ "plugins" →
      getField (optsOf (applyChartOptions cfgW oW)) k = getField (optsOf cfgW) k) ∧
    (truthy oW.width = true →
      getField (optsOf (applyChartOptions cfgW oW)) "width" = parseIntJS oW.width) ∧
    (truthy oW.width = false →
      getField (optsOf (applyChartOptions cfgW oW)) "width" =
        getField (optsOf cfgW) "width") ∧
    (truthy oW.height = true →
      getField (optsOf (applyChartOptions cfgW oW)) "height" = parseIntJS oW.height) ∧
    (truthy oW.height = false →
      getField (optsOf (applyChartOptions cfgW oW)) "height" =
        getField (optsOf cfgW) "height") ∧
    (∀ k, k ≠ "backgroundColor" →
      getField (pluginsIn (optsOf (applyChartOptions cfgW oW))) k =
        getField (pluginsIn (optsOf cfgW)) k) ∧
    (truthy oW.backgroundColor = true →
      getField (pluginsIn (optsOf (applyChartOptions cfgW oW))) "backgroundColor" =
        oW.backgroundColor) ∧
    (truthy oW.backgroundColor = false →
      getField (pluginsIn (optsOf (applyChartOptions cfgW oW))) "backgroundColor" =
        getField (pluginsIn (optsOf cfgW)) "backgroundColor") :=
  C9_applyChartOptions_frame cfgW oW (by trivial) (by trivial)

/-! ## `updateChart` viewport (src/index.js lines 171-179) -/

/-- `chartConfig.options?.width || 500` (and the height analogue) as read
by `updateChart`.  A `NaN` width is falsy in JS and is modelled as `null`;
non-numeric truthy values cannot be produced for supplied dimensions and
fall back to the default here. -/
def dimOr (cfg : Json) (k : String) (dflt : Int) : Int :=
  match cfg with
  | jObj fs =>
    match getField fs "options" with
    | jObj os =>
      match jsOr (getField os k) (jNum dflt) with
      | jNum n => n
      | _ => dflt
    | _ => dflt
  | _ => dflt

/-- The `page.setViewport` dimensions computed by `updateChart`:
`Math.max(width, 100) × Math.max(height, 100)`. -/
def updateChartViewport (cfg : Json) : Int × Int :=
  (max (dimOr cfg "width" 500) 100, max (dimOr cfg "height" 300) 100)

theorem takeWhile_all_digits (xs : List Char) (h : ∀ c ∈ xs, isDigitC c = true) :
    xs.takeWhile isDigitC = xs ∧ xs.dropWhile isDigitC = [] := by
  have hh := takeWhile_digits_append xs [] h noLD_nil
  rwa [List.append_nil] at hh

theorem isDigitC_ne_plus (c : Char) (h : isDigitC c = true) : c ≠ '+' := by
  intro hc
  subst hc
  simp [isDigitC] at h

theorem parseIntPrefix_intToChars (n : Int) :
    parseIntPrefix (intToChars n) = some n := by
  have hemp : ¬((natToChars n.natAbs).isEmpty = true) := by
    cases hnc : natToChars n.natAbs with
    | nil => exact absurd hnc (natToChars_ne_nil _)
    | cons c r => simp
  obtain ⟨ht, _⟩ := takeWhile_all_digits (natToChars n.natAbs)
    (natToChars_all_digits n.natAbs)
  unfold intToChars
  by_cases hneg : n < 0
  · rw [if_pos hneg]
    show (if ((natToChars n.natAbs).takeWhile isDigitC).isEmpty then none
          else some (-(digitsToNat ((natToChars n.natAbs).takeWhile isDigitC) : Int)))
        = some n
    rw [ht, if_neg hemp, digitsToNat_natToChars]
    congr 1
    omega
  · rw [if_neg hneg]
    obtain ⟨c, tl, hct, hcd⟩ : ∃ c tl, natToChars n.natAbs = c :: tl ∧
        isDigitC c = true := by
      cases hnc : natToChars n.natAbs with
      | nil => exact absurd hnc (natToChars_ne_nil _)
      | cons c tl =>
        refine ⟨c, tl, rfl, ?_⟩
        apply natToChars_all_digits
        rw [hnc]
        exact List.mem_cons_self c tl
    rw [hct]
    show (if c = '-' then
            if (tl.takeWhile isDigitC).isEmpty then none
            else some (-(digitsToNat (tl.takeWhile isDigitC) : Int))
          else if c = '+' then
            if (tl.takeWhile isDigitC).isEmpty then none
            else some ((digitsToNat (tl.takeWhile isDigitC) : Int))
          else
            if (((c :: tl).takeWhile isDigitC).isEmpty) then none
            else some ((digitsToNat ((c :: tl).takeWhile isDigitC) : Int))) = some n
    rw [if_neg (isDigitC_ne_minus c hcd), if_neg (isDigitC_ne_plus c hcd),
      ← hct, ht, if_neg hemp, digitsToNat_natToChars]
    congr 1
    omega

theorem parseIntJS_intToChars (n : Int) :
    parseIntJS (jStr (String.mk (intToChars n))) = jNum n := by
  show (match parseIntPrefix (String.mk (intToChars n)).data with
        | some m => jNum m
        | none => jNull) = jNum n
  rw [show (String.mk (intToChars n)).data = intToChars n from rfl,
    parseIntPrefix_intToChars]

/-- The options object after `applyChartOptions`. -/
theorem optsOf_applied (cfg : List (String × Json)) (o : RawOptions)
    (hopt : optionsFieldOk cfg) (hplug : pluginsFieldOk cfg) :
    optsOf (applyChartOptions cfg o) =
      stepBG (stepH (stepW (optsOf cfg) o) o) o := by
  rw [applyChartOptions_char cfg o hopt hplug]
  unfold optsOf
  rw [getField_setKey_self]

theorem width_after (cfg : List (String × Json)) (o : RawOptions)
    (hopt : optionsFieldOk cfg) (hplug : pluginsFieldOk cfg) :
    getField (optsOf (applyChartOptions cfg o)) "width" =
      (if truthy o.width then parseIntJS o.width
       else getField (optsOf cfg) "width") := by
  rw [optsOf_applied cfg o hopt hplug, getField_stepBG _ _ _ (by decide),
    getField_stepH _ _ _ (by decide)]
  unfold stepW
  cases hw : truthy o.width with
  | true => simp [getField_setKey_self]
  | false => simp

theorem height_after (cfg : List (String × Json)) (o : RawOptions)
    (hopt : optionsFieldOk cfg) (hplug : pluginsFieldOk cfg) :
    getField (optsOf (applyChartOptions cfg o)) "height" =
      (if truthy o.height then parseIntJS o.height
       else getField (optsOf cfg) "height") := by
  rw [optsOf_applied cfg o hopt hplug, getField_stepBG _ _ _ (by decide)]
  unfold stepH
  cases hh : truthy o.height with
  | true => simp [getField_setKey_self]
  | false =>
    simp
    exact getField_stepW (optsOf cfg) o "height" (by decide)

theorem dimOr_applied (cfg : List (String × Json)) (o : RawOptions)
    (hopt : optionsFieldOk cfg) (hplug : pluginsFieldOk cfg)
    (k : String) (dflt : Int) :
    dimOr (jObj (applyChartOptions cfg o)) k dflt =
      (match jsOr (getField (optsOf (applyChartOptions cfg o)) k) (jNum dflt) with
       | jNum m => m
       | _ => dflt) := by
  have h1 : getField (applyChartOptions cfg o) "options" =
      jObj (optsOf (applyChartOptions cfg o)) := by
    rw [applyChartOptions_char cfg o hopt hplug]
    unfold optsOf
    rw [getField_setKey_self]
  show (match getField (applyChartOptions cfg o) "options" with
        | jObj os =>
          match jsOr (getField os k) (jNum dflt) with
          | jNum n => n
          | _ => dflt
        | _ => dflt) =
      (match jsOr (getField (optsOf (applyChartOptions cfg o)) k) (jNum dflt) with
       | jNum m => m
       | _ => dflt)
  rw [h1]

/-- C10: a supplied width/height of 0 or the empty string leaves the
engine defaults (500×300) in effect; a negative supplied dimension is
clamped up to the 100-pixel viewport floor; and the viewport computation
never rejects a non-positive dimension — it is total and both components
are always at least 100.  (`jNum` inputs are the POST body form; `jStr`
inputs are the GET query form.) -/
theorem C10_nonpositive_dimensions (cfg : List (String × Json)) (o : RawOptions)
    (hopt : optionsFieldOk cfg) (hplug : pluginsFieldOk cfg)
    (hw0 : truthy (getField (optsOf cfg) "width") = false)
    (hh0 : truthy (getField (optsOf cfg) "height") = false) :
    ((o.width = jStr "0" ∨ o.width = jStr "" ∨ o.width = jNum 0 ∨ o.width = jNull) →
      (updateChartViewport (jObj (applyChartOptions cfg o))).1 = 500) ∧
    ((o.height = jStr "0" ∨ o.height = jStr "" ∨ o.height = jNum 0 ∨ o.height = jNull) →
      (updateChartViewport (jObj (applyChartOptions cfg o))).2 = 300) ∧
    (∀ n : Int, n < 0 →
      (o.width = jStr (String.mk (intToChars n)) ∨ o.width = jNum n) →
      (updateChartViewport (jObj (applyChartOptions cfg o))).1 = 100) ∧
    (∀ n : Int, n < 0 →
      (o.height = jStr (String.mk (intToChars n)) ∨ o.height = jNum n) →
      (updateChartViewport (jObj (applyChartOptions cfg o))).2 = 100) ∧
    (∀ c : Json, 100 ≤ (updateChartViewport c).1 ∧ 100 ≤ (updateChartViewport c).2) := by
  have hW := width_after cfg o hopt hplug
  have hH := height_after cfg o hopt hplug
  have hDW := dimOr_applied cfg o hopt hplug "width" 500
  have hDH := dimOr_applied cfg o hopt hplug "height" 300
  refine ⟨?_, ?_, ?_, ?_, ?_⟩
  · intro h
    show max (dimOr (jObj (applyChartOptions cfg o)) "width" 500) 100 = 500
    rw [hDW, hW]
    rcases h with h | h | h | h <;> rw [h]
    · rw [if_pos (show truthy (jStr "0") = true from rfl)]
      show max (500 : Int) 100 = 500
      decide
    · rw [if_neg (show ¬truthy (jStr "") = true by decide)]
      unfold jsOr
      rw [hw0]
      show max (500 : Int) 100 = 500
      decide
    · rw [if_neg (show ¬truthy (jNum 0) = true by decide)]
      unfold jsOr
      rw [hw0]
      show max (500 : Int) 100 = 500
      decide
    · rw [if_neg (show ¬truthy jNull = true by decide)]
      unfold jsOr
      rw [hw0]
      show max (500 : Int) 100 = 500
      decide
  · intro h
    show max (dimOr (jObj (applyChartOptions cfg o)) "height" 300) 100 = 300
    rw [hDH, hH]
    rcases h with h | h | h | h <;> rw [h]
    · rw [if_pos (show truthy (jStr "0") = true from rfl)]
      show max (300 : Int) 100 = 300
      decide
    · rw [if_neg (show ¬truthy (jStr "") = true by decide)]
      unfold jsOr
      rw [hh0]
      show max (300 : Int) 100 = 300
      decide
    · rw [if_neg (show ¬truthy (jNum 0) = true by decide)]
      unfold jsOr
      rw [hh0]
      show max (300 : Int) 100 = 300
      decide
    · rw [if_neg (show ¬truthy jNull = true by decide)]
      unfold jsOr
      rw [hh0]
      show max (300 : Int) 100 = 300
      decide
  · intro n hn h
    have hnz : truthy (jNum n) = true := by
      simp [truthy]
      omega
    show max (dimOr (jObj (applyChartOptions cfg o)) "width" 500) 100 = 100
    rw [hDW, hW]
    rcases h with h | h <;> rw [h]
    · obtain ⟨c, tl, hct, _⟩ := intToChars_head n
      rw [hct, if_pos (show truthy (jStr (String.mk (c :: tl))) = true from rfl),
        ← hct, parseIntJS_intToChars]
      unfold jsOr
      rw [hnz]
      show max n 100 = 100
      exact max_eq_right (by omega)
    · rw [if_pos hnz, show parseIntJS (jNum n) = jNum n from rfl]
      unfold jsOr
      rw [hnz]
      show max n 100 = 100
      exact max_eq_right (by omega)
  · intro n hn h
    have hnz : truthy (jNum n) = true := by
      simp [truthy]
      omega
    show max (dimOr (jObj (applyChartOptions cfg o)) "height" 300) 100 = 100
    rw [hDH, hH]
    rcases h with h | h <;> rw [h]
    · obtain ⟨c, tl, hct, _⟩ := intToChars_head n
      rw [hct, if_pos (show truthy (jStr (String.mk (c :: tl))) = true from rfl),
        ← hct, parseIntJS_intToChars]
      unfold jsOr
      rw [hnz]
      show max n 100 = 100
      exact max_eq_right (by omega)
    · rw [if_pos hnz, show parseIntJS (jNum n) = jNum n from rfl]
      unfold jsOr
      rw [hnz]
      show max n 100 = 100
      exact max_eq_right (by omega)
  · intro c
    exact ⟨le_max_right _ _, le_max_right _ _⟩

/-- Options with width "0" and height "-50", as a GET request supplies
them. -/
def oT : RawOptions :=
  { width := jStr "0", height := jStr (String.mk (intToChars (-50))),
    backgroundColor := jNull, encoding := jStr "url" }

/-- Concrete instance of `C10_nonpositive_dimensions`: config without its
own dimensions, width "0", height "-50". -/
theorem C10_nonpositive_dimensions_witness :
    ((oT.width = jStr "0" ∨ oT.width = jStr "" ∨ oT.width = jNum 0 ∨ oT.width = jNull) →
      (updateChartViewport (jObj (applyChartOptions cfgW oT))).1 = 500) ∧
    ((oT.height = jStr "0" ∨ oT.height = jStr "" ∨ oT.height = jNum 0 ∨ oT.height = jNull) →
      (updateChartViewport (jObj (applyChartOptions cfgW oT))).2 = 300) ∧
    (∀ n : Int, n < 0 →
      (oT.width = jStr (String.mk (intToChars n)) ∨ oT.width = jNum n) →
      (updateChartViewport (jObj (applyChartOptions cfgW oT))).1 = 100) ∧
    (∀ n : Int, n < 0 →
      (oT.height = jStr (String.mk (intToChars n)) ∨ oT.height = jNum n) →
      (updateChartViewport (jObj (applyChartOptions cfgW oT))).2 = 100) ∧
    (∀ c : Json, 100 ≤ (updateChartViewport c).1 ∧ 100 ≤ (updateChartViewport c).2) :=
  C10_nonpositive_dimensions cfgW oT (by trivial) (by trivial) (by decide) (by decide)

/-! ## Dispatch gateway (src/index.js lines 349-491) -/

/-- Response body shapes distinguishable at the gateway: the static texts,
structured JSON error bodies, and the image passthrough. -/
inductive GBody where
  | text : String → GBody
  | jsonBody : List (String × String) → GBody
  | image : GBody
  deriving Repr, DecidableEq

structure GResp where
  status : Nat
  headers : List (String × String)
  body : GBody
  deriving Repr, DecidableEq

/-- Result of `stub.fetch` on the Durable Object: a response (status and
headers) or a thrown error with its message. -/
inductive SessionOutcome where
  | success : Nat → List (String × String) → SessionOutcome
  | thrown : String → SessionOutcome
  deriving Repr, DecidableEq

/-- An inbound request: method, path, query parameters, and the parsed
JSON body (`none` models a POST body whose `request.json()` throws). -/
structure GReq where
  method : String
  path : String
  query : List (String × String)
  body : Option (List (String × Json))
  deriving Repr

def getHeader (hs : List (String × String)) (k : String) : Option String :=
  hs.lookup k

/-- `Headers.set`: replace any existing value for the name. -/
def setHeader (hs : List (String × String)) (k v : String) :
    List (String × String) :=
  hs.filter (fun p => p.1 != k) ++ [(k, v)]

/-- The `Server-Timing` value assembled in debug mode (lines 436-453). -/
def serverTimingValue (hs : List (String × String)) (workerTime : String) : String :=
  "browser;dur=" ++ ((getHeader hs "X-Init-Time").getD "0") ++
    ";desc=\"Browser Init\", " ++
  "update;dur=" ++ ((getHeader hs "X-Update-Time").getD "0") ++
    ";desc=\"Chart Update\", " ++
  "screenshot;dur=" ++ ((getHeader hs "X-Screenshot-Time").getD "0") ++
    ";desc=\"Screenshot\", " ++
  "render;dur=" ++ ((getHeader hs "X-Total-Time").getD "0") ++
    ";desc=\"Total Render\", " ++
  "worker;dur=" ++ workerTime ++ ";desc=\"Worker Total\""

/-- The `chart` value extracted from a request. -/
def chartOf (req : GReq) : Json :=
  (parseChartParameters req.method (req.body.getD []) req.query).1

/-- The options extracted from a request. -/
def optsOfReq (req : GReq) : RawOptions :=
  (parseChartParameters req.method (req.body.getD []) req.query).2

/-- The `/chart` branch of the worker handler (lines 382-471) together with
the surrounding try/catch (lines 367, 477-489).  `sess` maps the config
sent to the Durable Object to that call's outcome; `jsonFailMsg` and
`decodeFailMsg` stand for the platform messages of a throwing
`request.json()` / decode. -/
def chartPath (req : GReq) (rid : String) (sess : Json → SessionOutcome)
    (debug : Bool) (workerTime : String) (jsonFailMsg decodeFailMsg : String) :
    GResp :=
  if req.method = "POST" ∧ req.body.isNone = true then
    ⟨500, [("Content-Type", "application/json")],
      .jsonBody [("error", jsonFailMsg), ("requestId", rid)]⟩
  else if truthy (chartOf req) = false then
    ⟨400, [("Content-Type", "application/json")],
      .jsonBody [("error", "Missing chart configuration (use c or chart parameter)")]⟩
  else
    match decodeChartConfig (chartOf req) (optsOfReq req).encoding with
    | none =>
      ⟨400, [("Content-Type", "application/json")],
        .jsonBody [("error", "Invalid chart configuration"), ("details", decodeFailMsg)]⟩
    | some cfg =>
      match sess (applyChartOptionsJ cfg (optsOfReq req)) with
      | .thrown msg =>
        ⟨500, [("Content-Type", "application/json")],
          .jsonBody [("error", msg), ("requestId", rid)]⟩
      | .success status doHeaders =>
        let hs1 := setHeader (setHeader doHeaders "X-Worker-Time" workerTime)
          "X-Request-ID" rid
        let hs2 := if debug then
            setHeader hs1 "Server-Timing" (serverTimingValue hs1 workerTime)
          else hs1
        ⟨status, hs2, .image⟩

/-- `default.fetch` (lines 350-491): path-based routing, liveness text,
chart path, not-found. -/
def workerFetch (req : GReq) (rid : String) (sess : Json → SessionOutcome)
    (debug : Bool) (workerTime : String) (jsonFailMsg decodeFailMsg : String) :
    GResp :=
  if req.path = "/" ∨ req.path = "/health" then
    ⟨200, [("Content-Type", "text/plain"), ("X-Request-ID", rid)],
      .text "QuickChart Worker (Optimized with Browser Reuse)"⟩
  else if req.path = "/chart" then
    chartPath req rid sess debug workerTime jsonFailMsg decodeFailMsg
  else
    ⟨404, [("X-Request-ID", rid)], .text "Not Found"⟩

theorem lookup_filter_ne (hs : List (String × String)) (k : String) :
    (hs.filter (fun p => p.1 != k)).lookup k = none := by
  induction hs with
  | nil => rfl
  | cons p rest ih =>
    obtain ⟨k1, v1⟩ := p
    by_cases h : k1 = k
    · subst h
      simp only [List.filter]
      rw [show ((k1, v1).1 != k1) = false by simp]
      exact ih
    · simp only [List.filter]
      rw [show ((k1, v1).1 != k) = true by simp [h]]
      simp only [List.lookup]
      rw [show (k == k1) = false by simp [Ne.symm h]]
      exact ih

theorem lookup_append_left_none {α β : Type} [BEq α] (l1 l2 : List (α × β)) (k : α)
    (h : l1.lookup k = none) : (l1 ++ l2).lookup k = l2.lookup k := by
  induction l1 with
  | nil => simp
  | cons p rest ih =>
    obtain ⟨k1, v1⟩ := p
    simp only [List.lookup, List.cons_append] at h ⊢
    cases hk : (k == k1) with
    | true => rw [hk] at h; simp at h
    | false =>
      rw [hk] at h
      exact ih h

theorem getHeader_setHeader_self (hs : List (String × String)) (k v : String) :
    getHeader (setHeader hs k v) k = some v := by
  unfold getHeader setHeader
  rw [lookup_append_left_none _ _ _ (lookup_filter_ne hs k)]
  simp [List.lookup]

theorem getHeader_setHeader_other (hs : List (String × String)) (k k' v : String)
    (h : k' ≠ k) : getHeader (setHeader hs k v) k' = getHeader hs k' := by
  unfold getHeader setHeader
  induction hs with
  | nil =>
    simp only [List.filter, List.nil_append, List.lookup]
    rw [show (k' == k) = false by simp [h]]
  | cons p rest ih =>
    obtain ⟨k1, v1⟩ := p
    by_cases hk : k1 = k
    · subst hk
      simp only [List.filter]
      rw [show ((k1, v1).1 != k1) = false by simp]
      simp only [List.lookup]
      rw [show (k' == k1) = false by simp [h]]
      exact ih
    · simp only [List.filter]
      rw [show ((k1, v1).1 != k) = true by simp [hk]]
      simp only [List.cons_append, List.lookup]
      cases hkk : (k' == k1) with
      | true => rfl
      | false => exact ih

/-- Exhaustive shape analysis of the `/chart` branch: a 500 body carrying
the error message and the request id, one of the two 400 bodies, or an
image response whose headers carry `X-Request-ID`. -/
theorem chartPath_cases (req : GReq) (rid : String) (sess : Json → SessionOutcome)
    (debug : Bool) (wt jm dm : String) :
    (∃ m, chartPath req rid sess debug wt jm dm =
      ⟨500, [("Content-Type", "application/json")],
        .jsonBody [("error", m), ("requestId", rid)]⟩) ∨
    (chartPath req rid sess debug wt jm dm =
      ⟨400, [("Content-Type", "application/json")],
        .jsonBody [("error", "Missing chart configuration (use c or chart parameter)")]⟩) ∨
    (chartPath req rid sess debug wt jm dm =
      ⟨400, [("Content-Type", "application/json")],
        .jsonBody [("error", "Invalid chart configuration"), ("details", dm)]⟩) ∨
    (∃ status hs, chartPath req rid sess debug wt jm dm = ⟨status, hs, .image⟩ ∧
      getHeader hs "X-Request-ID" = some rid) := by
  unfold chartPath
  split
  · exact Or.inl ⟨jm, rfl⟩
  · split
    · exact Or.inr (Or.inl rfl)
    · split
      · exact Or.inr (Or.inr (Or.inl rfl))
      · split
        · exact Or.inl ⟨_, rfl⟩
        · refine Or.inr (Or.inr (Or.inr ⟨_, _, rfl, ?_⟩))
          cases debug with
          | true =>
            rw [if_pos rfl]
            rw [getHeader_setHeader_other _ _ _ _ (by decide)]
            exact getHeader_setHeader_self _ _ _
          | false =>
            rw [if_neg (by simp)]
            exact getHeader_setHeader_self _ _ _

/-- A request on a non-liveness path is not routed to the liveness branch. -/
theorem not_liveness_of_chart (req : GReq) (hp : req.path = "/chart") :
    ¬(req.path = "/" ∨ req.path = "/health") := by
  rintro (h | h) <;> rw [hp] at h <;> exact absurd h (by decide)

/-- C8 counterexample: `DELETE /health` — a method/path pair the claim
sends to 404 — actually returns the 200 liveness response: routing ignores
the method. -/
theorem C8_routing_counterexample :
    (workerFetch ⟨"DELETE", "/health", [], none⟩ "rid0" (fun _ => .thrown "e")
      false "0" "jm" "dm").status = 200 ∧
    ¬(workerFetch ⟨"DELETE", "/health", [], none⟩ "rid0" (fun _ => .thrown "e")
      false "0" "jm" "dm").status = 404 :=
  ⟨rfl, by decide⟩

/-- C8 (amended): routing is by path only.  Unmatched paths give 404 for
every method; `/` and `/health` give the 200 liveness text for every
method; `/chart` with a method other than GET/POST falls into the render
branch with no parameters and yields the 400 missing-chart response. -/
theorem C8_routing_by_path_only (req : GReq) (rid : String)
    (sess : Json → SessionOutcome) (debug : Bool) (wt jm dm : String) :
    (req.path ≠ "/" → req.path ≠ "/health" → req.path ≠ "/chart" →
      workerFetch req rid sess debug wt jm dm =
        ⟨404, [("X-Request-ID", rid)], .text "Not Found"⟩) ∧
    (req.path = "/" ∨ req.path = "/health" →
      workerFetch req rid sess debug wt jm dm =
        ⟨200, [("Content-Type", "text/plain"), ("X-Request-ID", rid)],
          .text "QuickChart Worker (Optimized with Browser Reuse)"⟩) ∧
    (req.path = "/chart" → req.method ≠ "GET" → req.method ≠ "POST" →
      workerFetch req rid sess debug wt jm dm =
        ⟨400, [("Content-Type", "application/json")],
          .jsonBody
            [("error", "Missing chart configuration (use c or chart parameter)")]⟩) := by
  refine ⟨?_, ?_, ?_⟩
  · intro h1 h2 h3
    unfold workerFetch
    rw [if_neg (by rintro (h | h); exacts [h1 h, h2 h]), if_neg h3]
  · intro h
    unfold workerFetch
    rw [if_pos h]
  · intro hp hg hpo
    unfold workerFetch
    rw [if_neg (not_liveness_of_chart req hp), if_pos hp]
    unfold chartPath
    rw [if_neg (fun hc => hpo hc.1)]
    have hchart : chartOf req = jNull := by
      unfold chartOf parseChartParameters
      rw [if_neg hpo, if_neg hg]
    rw [if_pos (by rw [hchart]; rfl)]

/-- Concrete instance of `C8_routing_by_path_only`: PUT on an unmatched
path, GET on /health, PUT on /chart. -/
theorem C8_routing_by_path_only_witness :
    (("/nope" : String) ≠ "/" → ("/nope" : String) ≠ "/health" →
      ("/nope" : String) ≠ "/chart" →
      workerFetch ⟨"PUT", "/nope", [], none⟩ "rid0" (fun _ => .thrown "e")
          false "0" "jm" "dm" =
        ⟨404, [("X-Request-ID", "rid0")], .text "Not Found"⟩) ∧
    (("/nope" : String) = "/" ∨ ("/nope" : String) = "/health" →
      workerFetch ⟨"PUT", "/nope", [], none⟩ "rid0" (fun _ => .thrown "e")
          false "0" "jm" "dm" =
        ⟨200, [("Content-Type", "text/plain"), ("X-Request-ID", "rid0")],
          .text "QuickChart Worker (Optimized with Browser Reuse)"⟩) ∧
    (("/nope" : String) = "/chart" → ("PUT" : String) ≠ "GET" →
      ("PUT" : String) ≠ "POST" →
      workerFetch ⟨"PUT", "/nope", [], none⟩ "rid0" (fun _ => .thrown "e")
          false "0" "jm" "dm" =
        ⟨400, [("Content-Type", "application/json")],
          .jsonBody
            [("error", "Missing chart configuration (use c or chart parameter)")]⟩) :=
  C8_routing_by_path_only ⟨"PUT", "/nope", [], none⟩ "rid0" (fun _ => .thrown "e")
    false "0" "jm" "dm"

/-- C7 counterexample: the 400 missing-chart response carries no
`X-Request-ID` header (its headers are only `Content-Type`). -/
theorem C7_request_id_counterexample :
    (workerFetch ⟨"GET", "/chart", [], none⟩ "rid0" (fun _ => .thrown "e")
      false "0" "jm" "dm").status = 400 ∧
    getHeader ((workerFetch ⟨"GET", "/chart", [], none⟩ "rid0"
      (fun _ => .thrown "e") false "0" "jm" "dm").headers) "X-Request-ID" = none :=
  ⟨rfl, rfl⟩

/-- C7 (amended): the per-request identifier is echoed on the liveness,
not-found and successful chart responses; the two 400 responses and the
500 response carry no `X-Request-ID` header at all, the 500 carrying the
identifier only inside its JSON body. -/
theorem C7_request_id_coverage (req : GReq) (rid : String)
    (sess : Json → SessionOutcome) (debug : Bool) (wt jm dm : String) :
    (req.path = "/" ∨ req.path = "/health" →
      getHeader (workerFetch req rid sess debug wt jm dm).headers "X-Request-ID" =
        some rid) ∧
    (req.path ≠ "/" → req.path ≠ "/health" → req.path ≠ "/chart" →
      getHeader (workerFetch req rid sess debug wt jm dm).headers "X-Request-ID" =
        some rid) ∧
    (req.path = "/chart" →
      (workerFetch req rid sess debug wt jm dm).body = .image →
      getHeader (workerFetch req rid sess debug wt jm dm).headers "X-Request-ID" =
        some rid) ∧
    (req.path = "/chart" →
      (workerFetch req rid sess debug wt jm dm).body ≠ .image →
      getHeader (workerFetch req rid sess debug wt jm dm).headers "X-Request-ID" =
        none) ∧
    (req.path = "/chart" →
      (workerFetch req rid sess debug wt jm dm).body ≠ .image →
      (workerFetch req rid sess debug wt jm dm).status = 500 →
      ∃ m, (workerFetch req rid sess debug wt jm dm).body =
        .jsonBody [("error", m), ("requestId", rid)]) := by
  have hchart : ∀ hp : req.path = "/chart",
      workerFetch req rid sess debug wt jm dm =
        chartPath req rid sess debug wt jm dm := by
    intro hp
    unfold workerFetch
    rw [if_neg (not_liveness_of_chart req hp), if_pos hp]
  refine ⟨?_, ?_, ?_, ?_, ?_⟩
  · intro h
    unfold workerFetch
    rw [if_pos h]
    rfl
  · intro h1 h2 h3
    unfold workerFetch
    rw [if_neg (by rintro (h | h); exacts [h1 h, h2 h]), if_neg h3]
    rfl
  · intro hp himg
    rw [hchart hp] at himg ⊢
    rcases chartPath_cases req rid sess debug wt jm dm with
      ⟨m, hc⟩ | hc | hc | ⟨st, hs, hc, hh⟩ <;> rw [hc] at himg ⊢
    · simp at himg
    · simp at himg
    · simp at himg
    · exact hh
  · intro hp himg
    rw [hchart hp] at himg ⊢
    rcases chartPath_cases req rid sess debug wt jm dm with
      ⟨m, hc⟩ | hc | hc | ⟨st, hs, hc, hh⟩ <;> rw [hc] at himg ⊢
    · rfl
    · rfl
    · rfl
    · exact absurd rfl himg
  · intro hp himg hst
    rw [hchart hp] at himg hst ⊢
    rcases chartPath_cases req rid sess debug wt jm dm with
      ⟨m, hc⟩ | hc | hc | ⟨st, hs, hc, hh⟩ <;> rw [hc] at himg hst ⊢
    · exact ⟨m, rfl⟩
    · simp at hst
    · simp at hst
    · exact absurd rfl himg

/-- Concrete instance of `C7_request_id_coverage` on a GET /health request. -/
theorem C7_request_id_coverage_witness :
    (("/health" : String) = "/" ∨ ("/health" : String) = "/health" →
      getHeader (workerFetch ⟨"GET", "/health", [], none⟩ "rid0"
        (fun _ => .thrown "e") false "0" "jm" "dm").headers "X-Request-ID" =
        some "rid0") ∧
    (("/health" : String) ≠ "/" → ("/health" : String) ≠ "/health" →
      ("/health" : String) ≠ "/chart" →
      getHeader (workerFetch ⟨"GET", "/health", [], none⟩ "rid0"
        (fun _ => .thrown "e") false "0" "jm" "dm").headers "X-Request-ID" =
        some "rid0") ∧
    (("/health" : String) = "/chart" →
      (workerFetch ⟨"GET", "/health", [], none⟩ "rid0" (fun _ => .thrown "e")
        false "0" "jm" "dm").body = .image →
      getHeader (workerFetch ⟨"GET", "/health", [], none⟩ "rid0"
        (fun _ => .thrown "e") false "0" "jm" "dm").headers "X-Request-ID" =
        some "rid0") ∧
    (("/health" : String) = "/chart" →
      (workerFetch ⟨"GET", "/health", [], none⟩ "rid0" (fun _ => .thrown "e")
        false "0" "jm" "dm").body ≠ .image →
      getHeader (workerFetch ⟨"GET", "/health", [], none⟩ "rid0"
        (fun _ => .thrown "e") false "0" "jm" "dm").headers "X-Request-ID" =
        none) ∧
    (("/health" : String) = "/chart" →
      (workerFetch ⟨"GET", "/health", [], none⟩ "rid0" (fun _ => .thrown "e")
        false "0" "jm" "dm").body ≠ .image →
      (workerFetch ⟨"GET", "/health", [], none⟩ "rid0" (fun _ => .thrown "e")
        false "0" "jm" "dm").status = 500 →
      ∃ m, (workerFetch ⟨"GET", "/health", [], none⟩ "rid0" (fun _ => .thrown "e")
        false "0" "jm" "dm").body = .jsonBody [("error", m), ("requestId", "rid0")]) :=
  C7_request_id_coverage ⟨"GET", "/health", [], none⟩ "rid0" (fun _ => .thrown "e")
    false "0" "jm" "dm"

/-- A GET /chart request carrying the empty-object chart config. -/
def chartReqW : GReq := ⟨"GET", "/chart", [("c", "\x7b\x7d")], none⟩

/-- C6 counterexample: an engine failure whose message is
"Protocol error: Connection closed." surfaces that exact internal message
in the 500 body's `error` field — the body is not a generic message. -/
theorem C6_leak_counterexample :
    (workerFetch chartReqW "rid0"
      (fun _ => .thrown "Protocol error: Connection closed.")
      false "0" "jm" "dm").status = 500 ∧
    (workerFetch chartReqW "rid0"
      (fun _ => .thrown "Protocol error: Connection closed.")
      false "0" "jm" "dm").body =
      .jsonBody [("error", "Protocol error: Connection closed."),
                 ("requestId", "rid0")] :=
  ⟨rfl, rfl⟩

/-- C6 (amended): an engine-level failure propagating out of the session
actor produces a 500 whose structured body carries the thrown error's own
message together with the request identifier — the internal failure detail
IS included (`error: error.message` at src/index.js line 481). -/
theorem C6_engine_error_surfaces_message (req : GReq) (rid msg : String)
    (sess : Json → SessionOutcome) (debug : Bool) (wt jm dm : String)
    (hp : req.path = "/chart")
    (hm : ¬(req.method = "POST" ∧ req.body.isNone = true))
    (hc : truthy (chartOf req) = true)
    (cfg : Json)
    (hd : decodeChartConfig (chartOf req) (optsOfReq req).encoding = some cfg)
    (hs : sess (applyChartOptionsJ cfg (optsOfReq req)) = .thrown msg) :
    workerFetch req rid sess debug wt jm dm =
      ⟨500, [("Content-Type", "application/json")],
        .jsonBody [("error", msg), ("requestId", rid)]⟩ := by
  unfold workerFetch
  rw [if_neg (not_liveness_of_chart req hp), if_pos hp]
  unfold chartPath
  rw [if_neg hm, if_neg (by rw [hc]; simp)]
  show (match decodeChartConfig (chartOf req) (optsOfReq req).encoding with
        | none =>
          (⟨400, [("Content-Type", "application/json")],
            .jsonBody [("error", "Invalid chart configuration"),
                       ("details", dm)]⟩ : GResp)
        | some cfg =>
          match sess (applyChartOptionsJ cfg (optsOfReq req)) with
          | .thrown m =>
            ⟨500, [("Content-Type", "application/json")],
              .jsonBody [("error", m), ("requestId", rid)]⟩
          | .success status doHeaders =>
            let hs1 := setHeader (setHeader doHeaders "X-Worker-Time" wt)
              "X-Request-ID" rid
            let hs2 := if debug then
                setHeader hs1 "Server-Timing" (serverTimingValue hs1 wt)
              else hs1
            ⟨status, hs2, .image⟩) =
      ⟨500, [("Content-Type", "application/json")],
        .jsonBody [("error", msg), ("requestId", rid)]⟩
  rw [hd]
  show (match sess (applyChartOptionsJ cfg (optsOfReq req)) with
        | .thrown m =>
          (⟨500, [("Content-Type", "application/json")],
            .jsonBody [("error", m), ("requestId", rid)]⟩ : GResp)
        | .success status doHeaders =>
          let hs1 := setHeader (setHeader doHeaders "X-Worker-Time" wt)
            "X-Request-ID" rid
          let hs2 := if debug then
              setHeader hs1 "Server-Timing" (serverTimingValue hs1 wt)
            else hs1
          ⟨status, hs2, .image⟩) =
      ⟨500, [("Content-Type", "application/json")],
        .jsonBody [("error", msg), ("requestId", rid)]⟩
  rw [hs]

/-- Concrete instance of `C6_engine_error_surfaces_message` on `chartReqW`. -/
theorem C6_engine_error_surfaces_message_witness :
    workerFetch chartReqW "rid0" (fun _ => .thrown "boom") false "0" "jm" "dm" =
      ⟨500, [("Content-Type", "application/json")],
        .jsonBody [("error", "boom"), ("requestId", "rid0")]⟩ :=
  C6_engine_error_surfaces_message chartReqW "rid0" "boom"
    (fun _ => .thrown "boom") false "0" "jm" "dm" rfl
    (by decide) rfl (jObj []) rfl rfl

/-! ## Concurrency: interleaved executions of `BrowserSession.fetch`

Each `await` inside `fetch` (browser launch, page setup, chart update
evaluation, screenshot capture) is a suspension point at which the hosting
runtime may deliver another request to the same object; `fetch` contains
no queue, mutex or `blockConcurrencyWhile` gate.  Two concurrent `fetch`
executions on the same session key are modelled as phase machines over the
shared handle state, driven by an arbitrary scheduler. -/

inductive Phase where
  | start
  | initing
  | updating
  | screenshotting
  | done
  deriving Repr, DecidableEq

/-- Phases in which the execution is using the exclusive engine resource:
awaiting `puppeteer.launch`/page setup inside `initializeBrowser`, the
`updateChart` evaluation, or the screenshot capture. -/
def Phase.usesEngine : Phase → Bool
  | .initing => true
  | .updating => true
  | .screenshotting => true
  | _ => false

/-- Shared state of one session object with two in-flight requests A and B:
whether `this.browser`/`this.page` are set, and each request's phase. -/
structure ConcState where
  browser : Bool
  pA : Phase
  pB : Phase
  deriving Repr, DecidableEq

/-- One resumption of a single `fetch` execution: entering `fetch` tests
`!this.browser || !this.page` (line 91) and suspends in
`initializeBrowser` or directly in `updateChart`; completing
initialization installs the handles (lines 145-146) and suspends in the
update; then the screenshot; then the response is returned. -/
def stepPhase (browser : Bool) : Phase → Phase × Bool
  | .start => if browser then (.updating, browser) else (.initing, browser)
  | .initing => (.updating, true)
  | .updating => (.screenshotting, browser)
  | .screenshotting => (.done, browser)
  | .done => (.done, browser)

/-- The scheduler resumes request A (`true`) or request B (`false`). -/
def stepTask (s : ConcState) (pick : Bool) : ConcState :=
  if pick then
    { s with pA := (stepPhase s.browser s.pA).1,
             browser := (stepPhase s.browser s.pA).2 }
  else
    { s with pB := (stepPhase s.browser s.pB).1,
             browser := (stepPhase s.browser s.pB).2 }

def runSched : ConcState → List Bool → ConcState
  | s, [] => s
  | s, p :: ps => runSched (stepTask s p) ps

/-- Both in-flight requests are inside engine-resource access at once. -/
def ConcState.overlapped (s : ConcState) : Bool :=
  s.pA.usesEngine && s.pB.usesEngine

/-- C2 (divergence witness): starting from a fresh session with two
pending renders, the two-step schedule "resume A, then resume B" — deliver
B's first step while A is still suspended awaiting browser launch — puts
both executions inside engine access simultaneously: `fetch` has no
structural mutual-exclusion gate, so the claimed non-overlap is not
enforced by the Session Actor. -/
theorem C2_engine_access_overlap_reachable :
    (runSched ⟨false, .start, .start⟩ [true, false]).overlapped = true := by decide

end QuickChart
